import Mathlib

/-!
Verification development for the KuiperInfer runtime graph
(`source/runtime/runtime_ir.cpp`).

The C++ source is shallowly embedded:

* `Tensor` stands for `Tensor<float>`: its three `uint32_t` dimensions are
  kept as `Nat` (`shapes()` returns `[channels, rows, cols]`), and the float
  contents of a buffer are abstracted into a single `payload` token, since
  none of the verified properties depend on kernel arithmetic — propagation
  only ever copies whole buffers (`set_data`).
* `RuntimeOperand` / `RuntimeOperator` mirror the runtime structs used by
  `runtime_ir.cpp`.  The `input_operands` `std::map` and the parallel
  `input_operands_seq` vector alias the same objects: the map holds, for each
  distinct producer name, the *first* operand of the sequence carrying that
  name (`std::map::insert` never overwrites).  We therefore store only the
  sequence and define map lookup / map update as first-occurrence-by-name
  operations, which reproduces the aliasing exactly.
* Node identity (shared_ptr identity in C++) is the index into the graph's
  operator list; `output_operators` is the list of consumer indices.
* `CHECK`/`LOG(FATAL)` failures and uncaught C++ exceptions (`std::vector::at`
  out of range) abort the process; both are modelled as a fatal result.
* Machine integers: pnnx shapes are `std::vector<int32_t>`, modelled as
  `List Int`; tensor dimensions are `uint32_t`, modelled as `Nat`.  A C++
  comparison between the two converts the signed operand to `uint32_t`,
  modelled by `toU32`.
-/

namespace KuiperInfer

/-- Element types of `RuntimeDataType`; `runtime_ir.cpp` only ever uses
`kTypeFloat32`. -/
inductive RuntimeDataType where
  | kTypeUnknown
  | kTypeFloat32
deriving DecidableEq, Repr, Inhabited

/-- Modelled from the spec: the graph lifecycle state
`Uninitialized → NeedInit → NeedBuild → Complete` (the enum lives in the
header `runtime_ir.hpp`, which is not part of the provided sources; the spec
fixes the four states and their order). -/
inductive GraphState where
  | Uninitialized
  | NeedInit
  | NeedBuild
  | Complete
deriving DecidableEq, Repr, Inhabited

/-- Numeric rank of a lifecycle state, used for the `<` / `>=` comparisons
the C++ code performs on the enum. -/
def GraphState.rank : GraphState → Nat
  | .Uninitialized => 0
  | .NeedInit => 1
  | .NeedBuild => 2
  | .Complete => 3

/-- A `Tensor<float>` buffer: `shapes()` returns the three `uint32_t`
dimensions `[channels, rows, cols]`; the float contents are abstracted into
one `payload` token (propagation copies contents wholesale and never
inspects them). -/
structure Tensor where
  channels : Nat
  rows : Nat
  cols : Nat
  payload : Nat
deriving DecidableEq, Repr, Inhabited

/-- C++ conversion of an `int32_t` value to `uint32_t`, as performed by the
usual arithmetic conversions when the code compares a signed declared
dimension against an unsigned tensor dimension, and when it passes a signed
dimension to the `Tensor` constructor. -/
def toU32 (d : Int) : Nat := (d % (4294967296 : Int)).toNat

/-- `RuntimeOperand`: a named, typed, shaped data edge holding one buffer per
batch element. -/
structure RuntimeOperand where
  name : String
  type : RuntimeDataType
  shapes : List Int
  datas : List Tensor
deriving DecidableEq, Repr, Inhabited

/-- `std::map<std::string, shared_ptr<RuntimeOperand>>::find`-style lookup
over the operand sequence: the map entry for key `k` is the first operand of
the sequence named `k` (later duplicates were rejected by
`std::map::insert`). -/
def findOperandByName : List RuntimeOperand → String → Option RuntimeOperand
  | [], _ => none
  | od :: rest, k => if od.name = k then some od else findOperandByName rest k

/-- In-place mutation of the map operand's `datas` field: only the first
sequence entry named `k` is the shared object the map points to, so only it
is updated. -/
def setDatasFirst : List RuntimeOperand → String → List Tensor → List RuntimeOperand
  | [], _, _ => []
  | od :: rest, k, ds =>
    if od.name = k then { od with datas := ds } :: rest
    else od :: setDatasFirst rest k ds

/-- The compute handler bound by the layer factory.  It reads the flat input
buffer list and the pre-allocated output buffers, and either fails
(`InferStatus != kInferSuccess`) or writes new contents (payload tokens) into
the output buffers. -/
def LayerFn : Type := List Tensor → List Tensor → Option (List Nat)

instance : Inhabited LayerFn := ⟨fun _ _ => none⟩

/-- `RuntimeOperator`: one graph node.  `input_operands_seq` is the ordered
operand sequence; the name-keyed `input_operands` map is recovered from it by
`findOperandByName` / `inputNamesD` (see the header comment).
`output_operators` holds the consumer node indices, `meet_num` the delivery
counter. -/
structure RuntimeOperator where
  name : String
  type : String
  input_operands_seq : List RuntimeOperand
  output_operands : Option RuntimeOperand
  output_operators : List Nat
  layer : LayerFn
  meet_num : Nat
deriving Inhabited

/-- The key set of the `input_operands` map: the distinct producer names of
the operand sequence.  Its length is `input_operands.size()`, the node's
distinct-producer count. -/
def RuntimeOperator.inputNamesD (op : RuntimeOperator) : List String :=
  (op.input_operands_seq.map (fun od => od.name)).dedup

/-- Lookup of `input_operands.find(k)` on a node. -/
def RuntimeOperator.findInputOperand (op : RuntimeOperator) (k : String) :
    Option RuntimeOperand :=
  findOperandByName op.input_operands_seq k

/-- Write new buffer contents through the `input_operands` map entry for key
`k` (shared with the first same-named sequence entry). -/
def RuntimeOperator.setInputOperandDatas (op : RuntimeOperator) (k : String)
    (ds : List Tensor) : RuntimeOperator :=
  { op with input_operands_seq := setDatasFirst op.input_operands_seq k ds }

/-! ## Shape resolver (`RuntimeGraphShape`) -/

namespace RuntimeGraphShape

/-- Fresh zero buffers allocated for a declared shape: for a 4-D shape
`Tensor(shapes[1], shapes[2], shapes[3])`, for a 2-D shape
`Tensor(1, shapes[1], 1)`; the signed dimensions pass through the
`uint32_t` constructor parameters (`toU32`). -/
def allocBuffers (shapes : List Int) (batch : Int) : List Tensor :=
  List.replicate batch.toNat
    (if shapes.length = 4 then
      { channels := toU32 (shapes.getD 1 0), rows := toU32 (shapes.getD 2 0),
        cols := toU32 (shapes.getD 3 0), payload := 0 }
    else
      { channels := 1, rows := toU32 (shapes.getD 1 0), cols := 1, payload := 0 })

/-- The per-buffer `CHECK` expression of `InitOperatorInputTensor`, comparing
the buffer's `uint32_t` dimensions with the declared signed dimensions
(signed operand converted to unsigned).  `none` models an
`std::vector::at` out-of-range exception while evaluating the expression
(unreachable once the rank has been checked). -/
def checkInputBuffer (shapes : List Int) (t : Tensor) : Option Bool :=
  if shapes.length = 4 then
    match shapes[1]?, shapes[2]?, shapes[3]? with
    | some s1, some s2, some s3 =>
      some ((t.channels == toU32 s1) && (t.rows == toU32 s2) && (t.cols == toU32 s3))
    | _, _, _ => none
  else
    match shapes[1]? with
    | some s1 => some ((t.rows == toU32 s1) && (t.channels == 1) && (t.cols == 1))
    | none => none

/-- The validation loop over the pre-existing buffers (runs after
`input_datas.size() == batch` has been checked, so it visits exactly the
buffers). -/
def checkAllBuffers (shapes : List Int) (ds : List Tensor) : Bool :=
  ds.all (fun t => (checkInputBuffer shapes t).getD false)

/-- One input operand of `InitOperatorInputTensor`
(`runtime_ir.cpp` lines 23-54): type must be `kTypeFloat32`; `batch` is
`shapes.at(0)` (out-of-range aborts), must be non-negative; rank must be 2 or
4; pre-existing buffers must number `batch` and each must pass
`checkInputBuffer`; otherwise `batch` fresh buffers are allocated.  `none`
models the aborted process (failed `CHECK` or escaped exception). -/
def initInputOperand (od : RuntimeOperand) : Option RuntimeOperand :=
  if od.type ≠ RuntimeDataType.kTypeFloat32 then none
  else match od.shapes[0]? with
    | none => none
    | some batch =>
      if batch < 0 then none
      else if ¬(od.shapes.length = 2 ∨ od.shapes.length = 4) then none
      else if od.datas.isEmpty then
        some { od with datas := allocBuffers od.shapes batch }
      else if od.datas.length = batch.toNat then
        if checkAllBuffers od.shapes od.datas then some od else none
      else none

/-- The per-node loop of `InitOperatorInputTensor`: iterate the
`input_operands` map (one entry per distinct producer name, each sharing the
first same-named sequence operand) and resolve each entry in place.  A node
without inputs is skipped. -/
def initNames : RuntimeOperator → List String → Option RuntimeOperator
  | op, [] => some op
  | op, nm :: rest =>
    match op.findInputOperand nm with
    | none => initNames op rest
    | some od =>
      match initInputOperand od with
      | none => none
      | some od2 => initNames (op.setInputOperandDatas nm od2.datas) rest

/-- Input-shape resolution for a single node. -/
def initOpInputs (op : RuntimeOperator) : Option RuntimeOperator :=
  if op.input_operands_seq.isEmpty then some op
  else initNames op op.inputNamesD

/-- `RuntimeGraphShape::InitOperatorInputTensor`: an empty operator list only
logs an error and returns; otherwise every node's input operands are
resolved. -/
def InitOperatorInputTensor (ops : List RuntimeOperator) :
    Option (List RuntimeOperator) :=
  if ops.isEmpty then some ops
  else go ops
where
  /-- per-operator loop -/
  go : List RuntimeOperator → Option (List RuntimeOperator)
    | [] => some []
    | op :: rest =>
      match initOpInputs op with
      | none => none
      | some op2 =>
        match go rest with
        | none => none
        | some rest2 => some (op2 :: rest2)

end RuntimeGraphShape

/-- A `pnnx::Operand` as consumed by `InitOperatorOutputTensor`: only its
name and declared shape are read there (`outputs` of a pnnx operator carry no
element type). -/
structure PnnxOperand where
  name : String
  shape : List Int
deriving DecidableEq, Repr, Inhabited

/-- The part of a `pnnx::Operator` read by `InitOperatorOutputTensor`. -/
structure PnnxOperator where
  outputs : List PnnxOperand
deriving DecidableEq, Repr, Inhabited

namespace RuntimeGraphShape

/-- Evaluation of the 4-D per-buffer `CHECK` expression of
`InitOperatorOutputTensor` (lines 104-105).  Note the source compares
`tensor_shapes := output_tensors->shapes` — the operand's own declared shape
vector — against `shapes`, not the buffer's dimensions. -/
def evalCheck4D (ts sh : List Int) : Option Bool := do
  let a1 ← ts[1]?
  let s1 ← sh[1]?
  if a1 = s1 then do
    let a2 ← ts[2]?
    let s2 ← sh[2]?
    if a2 = s2 then do
      let a3 ← ts[3]?
      let s3 ← sh[3]?
      pure (a3 = s3 : Bool)
    else pure false
  else pure false

/-- Evaluation of the 2-D per-buffer `CHECK` expression (line 107), with
C++ left-to-right short-circuiting: `tensor_shapes.at(0) == 1 &&
tensor_shapes.at(1) == shapes.at(1) && tensor_shapes.at(2) == 1`.  `none`
models the `std::out_of_range` exception from `at(2)` on the two-element
shape vector. -/
def evalCheck2D (ts sh : List Int) : Option Bool := do
  let a0 ← ts[0]?
  if a0 = 1 then do
    let a1 ← ts[1]?
    let s1 ← sh[1]?
    if a1 = s1 then do
      let a2 ← ts[2]?
      pure (a2 = 1 : Bool)
    else pure false
  else pure false

/-- One pnnx-descriptor / runtime-node pair of `InitOperatorOutputTensor`
(lines 66-110): more than one output operand is fatal; no output operand
skips the node; otherwise batch/rank constraints as in the input pass; an
absent output operand is created (`<operand name>_output`, float32, declared
shape, one fresh buffer per batch element); a present one must match in
batch count, be float32, equal the declared shape, and then every existing
buffer runs the (self-comparing) `CHECK` loop. -/
def initOpOutput (pop : PnnxOperator) (op : RuntimeOperator) :
    Option RuntimeOperator :=
  if 1 < pop.outputs.length then none
  else match pop.outputs.head? with
    | none => some op
    | some pnxOd =>
      match pnxOd.shape[0]? with
      | none => none
      | some batch =>
        if batch < 0 then none
        else if ¬(pnxOd.shape.length = 2 ∨ pnxOd.shape.length = 4) then none
        else match op.output_operands with
          | none =>
            let newOd : RuntimeOperand :=
              { name := pnxOd.name ++ "_output",
                type := RuntimeDataType.kTypeFloat32,
                shapes := pnxOd.shape,
                datas := allocBuffers pnxOd.shape batch }
            some { op with output_operands := some newOd }
          | some outOd =>
            if outOd.datas.length ≠ batch.toNat then none
            else if outOd.type ≠ RuntimeDataType.kTypeFloat32 then none
            else if outOd.shapes ≠ pnxOd.shape then none
            else if outOd.datas.isEmpty then some op
            else
              match (if pnxOd.shape.length = 4 then evalCheck4D outOd.shapes pnxOd.shape
                     else evalCheck2D outOd.shapes pnxOd.shape) with
              | some true => some op
              | _ => none

/-- `RuntimeGraphShape::InitOperatorOutputTensor`: both lists must be
non-empty and of equal length; the nodes are resolved pairwise with their
pnnx descriptors. -/
def InitOperatorOutputTensor (pnnxOps : List PnnxOperator)
    (ops : List RuntimeOperator) : Option (List RuntimeOperator) :=
  if pnnxOps.isEmpty ∨ ops.isEmpty then none
  else if pnnxOps.length ≠ ops.length then none
  else go pnnxOps ops
where
  /-- pairwise loop -/
  go : List PnnxOperator → List RuntimeOperator → Option (List RuntimeOperator)
    | [], [] => some []
    | [], _ :: _ => none
    | _ :: _, [] => none
    | pop :: prest, op :: orest =>
      match initOpOutput pop op with
      | none => none
      | some op2 =>
        match go prest orest with
        | none => none
        | some rest2 => some (op2 :: rest2)

end RuntimeGraphShape

/-! ## Spec-side predicates for input-shape resolution

`specInputAcceptB` transcribes the acceptance condition exactly as the claim
words it (buffer dimensions must match the declared non-batch dimensions as
integers); `amendedInputAcceptB` is the amended condition (matching after the
C++ `uint32_t` conversion of the signed declared dimensions). -/

/-- The claim's buffer-match condition, literally: 4-D buffers carry exactly
the declared channel/height/width, 2-D buffers are `1×features×1`, with the
declared dimensions read as plain integers. -/
def specBufferMatchExact (shapes : List Int) (t : Tensor) : Bool :=
  if shapes.length = 4 then
    ((t.channels : Int) == shapes.getD 1 0) && ((t.rows : Int) == shapes.getD 2 0) &&
      ((t.cols : Int) == shapes.getD 3 0)
  else
    (t.channels == 1) && ((t.rows : Int) == shapes.getD 1 0) && (t.cols == 1)

/-- Acceptance of one input operand exactly as claimed: float32 element type,
rank 2 or 4, non-negative batch, and — when buffers pre-exist — buffer count
equal to the batch and an exact dimension match per buffer. -/
def specInputAcceptB (od : RuntimeOperand) : Bool :=
  (od.type == RuntimeDataType.kTypeFloat32) &&
  (match od.shapes[0]? with
   | some b => decide (0 ≤ b)
   | none => false) &&
  (od.shapes.length == 2 || od.shapes.length == 4) &&
  (od.datas.isEmpty ||
    ((od.datas.length == (od.shapes.getD 0 0).toNat) &&
     od.datas.all (fun t => specBufferMatchExact od.shapes t)))

/-- The amended buffer-match condition: dimensions match after the C++
conversion of the signed declared dimension to `uint32_t` (a negative
declared dimension matches its 2^32-complement). -/
def bufferMatchModU32 (shapes : List Int) (t : Tensor) : Bool :=
  if shapes.length = 4 then
    (t.channels == toU32 (shapes.getD 1 0)) && (t.rows == toU32 (shapes.getD 2 0)) &&
      (t.cols == toU32 (shapes.getD 3 0))
  else
    (t.channels == 1) && (t.rows == toU32 (shapes.getD 1 0)) && (t.cols == 1)

/-- Acceptance of one input operand as amended: float32 element type, rank 2
or 4, non-negative batch, and — when buffers pre-exist — buffer count equal
to the batch and a per-buffer dimension match modulo the `uint32_t`
conversion. -/
def amendedInputAcceptB (od : RuntimeOperand) : Bool :=
  (od.type == RuntimeDataType.kTypeFloat32) &&
  (match od.shapes[0]? with
   | some b => decide (0 ≤ b)
   | none => false) &&
  (od.shapes.length == 2 || od.shapes.length == 4) &&
  (od.datas.isEmpty ||
    ((od.datas.length == (od.shapes.getD 0 0).toNat) &&
     od.datas.all (fun t => bufferMatchModU32 od.shapes t)))

/-- The output operand `InitOperatorOutputTensor` creates when a node has
none: name `<descriptor operand name>_output`, float32, the declared shape,
one fresh buffer per batch element. -/
def createdOutputOperand (pnxOd : PnnxOperand) (batch : Int) : RuntimeOperand :=
  { name := pnxOd.name ++ "_output",
    type := RuntimeDataType.kTypeFloat32,
    shapes := pnxOd.shape,
    datas := RuntimeGraphShape.allocBuffers pnxOd.shape batch }

/-! ### Concrete witness data for the shape resolver -/

/-- A 4-D input operand whose declared channel dimension is negative: the
single pre-existing buffer carries the 2^32-complement `4294967295`, which
the C++ comparison accepts after the unsigned conversion. -/
def cxOperand : RuntimeOperand :=
  { name := "x", type := RuntimeDataType.kTypeFloat32, shapes := [1, -1, 2, 3],
    datas := [{ channels := 4294967295, rows := 2, cols := 3, payload := 0 }] }

/-- A buffer-less 2-D input operand of batch 2, exercising the allocation
path. -/
def allocOperand : RuntimeOperand :=
  { name := "y", type := RuntimeDataType.kTypeFloat32, shapes := [2, 5], datas := [] }

/-- The resolved form of `allocOperand`: two fresh `1×5×1` buffers. -/
def allocOperandRes : RuntimeOperand :=
  { allocOperand with datas := RuntimeGraphShape.allocBuffers allocOperand.shapes 2 }

/-- A pnnx output operand with a 4-D declared shape. -/
def pnxC8 : PnnxOperand := { name := "n", shape := [1, 2, 3, 4] }

/-- A pnnx operator descriptor declaring the single output `pnxC8`. -/
def popC8 : PnnxOperator := { outputs := [pnxC8] }

/-- A runtime node without an output operand, to exercise the creation path
of `InitOperatorOutputTensor`. -/
def opC8 : RuntimeOperator :=
  { name := "A", type := "nn.ReLU", input_operands_seq := [],
    output_operands := none, output_operators := [],
    layer := fun _ _ => none, meet_num := 0 }

/-! ## Scheduler / Executor (`RuntimeGraph::Forward`) -/

/-- Observable events of one `Forward` pass, recorded in execution order.
Each event carries the counter values the code read at that moment. -/
inductive Event where
  /-- the input sentinel was dequeued and the externally supplied tensors
  were propagated -/
  | inputProcessed
  /-- `SetOpInputData` copied `producer`'s buffers into `consumer`'s matching
  input operand and the net counter bump `meetBefore → meetAfter` completed;
  `inQueue` records whether the consumer was present in the work queue -/
  | delivered (producer consumer meetBefore meetAfter : Nat) (inQueue : Bool)
  /-- the consumer was pushed onto the work queue, its (transiently
  incremented) counter reading `meetAtEnqueue` -/
  | enqueued (consumer meetAtEnqueue : Nat)
  /-- the node's compute handler was invoked, its delivery counter reading
  `meetAtFire` and its distinct-producer count `distinctCount` -/
  | fired (node meetAtFire distinctCount : Nat)
  /-- an unready dequeued node was re-enqueued at the back of the queue -/
  | retried (node : Nat)
deriving DecidableEq, Repr

/-- Mutable execution state of one `Forward` pass: the node store, the FIFO
work queue of node indices (`std::deque<shared_ptr<RuntimeOperator>>`), and
the event trace. -/
structure ExecState where
  ops : List RuntimeOperator
  queue : List Nat
  trace : List Event

/-- Result of a propagation step: `ok` continues, `fatal` is an aborted
process (failed `CHECK`), carrying the state at the moment of death. -/
inductive PRes where
  | ok (st : ExecState)
  | fatal (st : ExecState)

namespace RuntimeGraph

/-- `RuntimeGraph::SetOpInputData`: copy each source buffer's contents into
the corresponding destination buffer
(`dest.at(i)->set_data(src.at(i)->data())`); a size mismatch fails the
`CHECK` before any write happens. -/
def SetOpInputData (src dest : List Tensor) : Option (List Tensor) :=
  if src.length = dest.length then
    some (List.zipWith (fun s d => { d with payload := s.payload }) src dest)
  else none

/-- `RuntimeGraph::CheckOperatorReady`:
`CHECK(op->meet_num <= op->input_operands.size())` (violation aborts the
process, modelled `none`), then ready iff the delivery counter equals the
distinct-producer count. -/
def CheckOperatorReady (op : RuntimeOperator) : Option Bool :=
  if op.meet_num ≤ op.inputNamesD.length then
    some (op.meet_num == op.inputNamesD.length)
  else none

/-- One consumer edge of `ProbeNextLayer` (`runtime_ir.cpp` lines 492-507):
when the consumer's `input_operands` map contains the producer's name, copy
the produced buffers into that map operand; then, only when the consumer is
not already in the queue, transiently increment its counter, test readiness
on the incremented value, enqueue if ready, and undo the transient
increment; finally increment the counter once unconditionally.  The
increment/decrement/increment sequence of the source is kept literally. -/
def probeOne (curIdx : Nat) (curName : String) (outDatas : List Tensor)
    (st : ExecState) (nextIdx : Nat) : PRes :=
  match st.ops[nextIdx]? with
  | none => .fatal st
  | some nextOp =>
    match nextOp.findInputOperand curName with
    | none => .ok st
    | some od =>
      match SetOpInputData outDatas od.datas with
      | none => .fatal st
      | some newDatas =>
        let nextOp1 := nextOp.setInputOperandDatas curName newDatas
        if nextIdx ∈ st.queue then
          let m := nextOp1.meet_num
          let nextOp2 := { nextOp1 with meet_num := m + 1 }
          .ok { ops := st.ops.set nextIdx nextOp2, queue := st.queue,
                trace := st.trace ++ [.delivered curIdx nextIdx m nextOp2.meet_num true] }
        else
          let m := nextOp1.meet_num
          let probeOp := { nextOp1 with meet_num := m + 1 }
          match CheckOperatorReady probeOp with
          | none =>
            .fatal { ops := st.ops.set nextIdx probeOp, queue := st.queue,
                     trace := st.trace }
          | some ready =>
            let q2 := if ready then st.queue ++ [nextIdx] else st.queue
            let nextOp2 := { probeOp with meet_num := probeOp.meet_num - 1 + 1 }
            let tr2 := st.trace ++ [.delivered curIdx nextIdx m nextOp2.meet_num false] ++
              (if ready then [.enqueued nextIdx probeOp.meet_num] else [])
            .ok { ops := st.ops.set nextIdx nextOp2, queue := q2, trace := tr2 }

/-- The consumer-edge loop of `ProbeNextLayer` (iteration over the node's
`output_operators` map). -/
def probeList (curIdx : Nat) (curName : String) (outDatas : List Tensor) :
    List Nat → ExecState → PRes
  | [], st => .ok st
  | j :: rest, st =>
    match probeOne curIdx curName outDatas st j with
    | .ok st1 => probeList curIdx curName outDatas rest st1
    | .fatal st1 => .fatal st1

/-- `RuntimeGraph::ProbeNextLayer`. -/
def ProbeNextLayer (curIdx : Nat) (outDatas : List Tensor) (st : ExecState) : PRes :=
  match st.ops[curIdx]? with
  | none => .fatal st
  | some cur => probeList curIdx cur.name outDatas cur.output_operators st

/-- The compute handler writes its result tokens into the pre-allocated
output buffers in place; the buffer count cannot change (the handler only
mutates tensor contents through shared pointers). -/
def writeTokens : List Tensor → List Nat → List Tensor
  | [], _ => []
  | o :: os, [] => o :: os
  | o :: os, tk :: tks => { o with payload := tk } :: writeTokens os tks

/-- Exit status of the scheduler loop: `finished` (the output sentinel was
dequeued, or the queue drained), `fatal` (a failed `CHECK` aborted the
process), or `outOfFuel` (the loop did not terminate within the supplied
fuel — the C++ loop has no such bound and can spin forever on a malformed
graph). -/
inductive LoopRes where
  | finished (st : ExecState)
  | fatal (st : ExecState)
  | outOfFuel (st : ExecState)

/-- The state carried by a loop result. -/
def LoopRes.state : LoopRes → ExecState
  | .finished st => st
  | .fatal st => st
  | .outOfFuel st => st

/-- The scheduler loop of `RuntimeGraph::Forward` (lines 266-322): dequeue
the front node; stop when it is the output sentinel; for the input sentinel
propagate the externally supplied tensors without invoking a handler;
otherwise test readiness (an unready node is re-enqueued at the back and the
loop continues), gather the flat input tensor list from the ordered operand
sequence (`CHECK` non-empty), require an output operand, invoke the bound
handler (a non-success status is fatal), and propagate the produced
buffers. -/
def forwardLoop (inI outI : Nat) (inputs : List Tensor) :
    Nat → ExecState → LoopRes
  | 0, st => .outOfFuel st
  | fuel + 1, st =>
    match st.queue with
    | [] => .finished st
    | cur :: rest =>
      let st1 : ExecState := { st with queue := rest }
      if cur = outI then .finished st1
      else if cur = inI then
        match ProbeNextLayer inI inputs
            { st1 with trace := st1.trace ++ [.inputProcessed] } with
        | .ok st2 => forwardLoop inI outI inputs fuel st2
        | .fatal st2 => .fatal st2
      else
        match st1.ops[cur]? with
        | none => .fatal st1
        | some op =>
          match CheckOperatorReady op with
          | none => .fatal st1
          | some false =>
            forwardLoop inI outI inputs fuel
              { st1 with queue := rest ++ [cur], trace := st1.trace ++ [.retried cur] }
          | some true =>
            let layerIns := (op.input_operands_seq.map (fun od => od.datas)).flatten
            if layerIns.isEmpty then .fatal st1
            else
              match op.output_operands with
              | none => .fatal st1
              | some outOd =>
                let st2 := { st1 with
                  trace := st1.trace ++ [.fired cur op.meet_num op.inputNamesD.length] }
                match op.layer layerIns outOd.datas with
                | none => .fatal st2
                | some toks =>
                  let newOut := writeTokens outOd.datas toks
                  let op2 := { op with output_operands := some { outOd with datas := newOut } }
                  let st3 := { st2 with ops := st2.ops.set cur op2 }
                  match ProbeNextLayer cur newOut st3 with
                  | .ok st4 => forwardLoop inI outI inputs fuel st4
                  | .fatal st4 => .fatal st4

end RuntimeGraph

/-- Result of one `Forward` call: the post-call node store, the event trace,
and the returned buffer list (`none` when the process aborted or the fuel
ran out). -/
structure ForwardOutcome where
  ops : List RuntimeOperator
  trace : List Event
  result : Option (List Tensor)

/-- Lookup in a name-keyed sentinel map (`input_operators_maps_` /
`output_operators_maps_`), stored as an association list of name/index
pairs in insertion order; keys are unique, so the first match is the map
entry. -/
def lookupIdx : List (String × Nat) → String → Option Nat
  | [], _ => none
  | (k, v) :: rest, s => if k = s then some v else lookupIdx rest s

/-- `RuntimeGraph`: the owned node list, the pnnx descriptors retained from
`Init` (`graph_->ops`), the lifecycle state, the two name-keyed sentinel
maps, and the input/output node names recorded by `Build`. -/
structure RuntimeGraph where
  operators : List RuntimeOperator
  pnnx_ops : List PnnxOperator
  graph_state : GraphState
  input_operators_maps : List (String × Nat)
  output_operators_maps : List (String × Nat)
  input_name : String
  output_name : String

namespace RuntimeGraph

/-- `RuntimeGraph::Forward` (lines 241-335), with an explicit fuel bound on
the scheduler loop.  The lifecycle guard (`graph_state_ < Complete` is
`LOG(FATAL)`, then `CHECK(graph_state_ == Complete)`) rejects any state
other than `Complete` before anything else runs; the sentinel lookups are
fatal on a missing name; after the loop finishes, every node's delivery
counter is reset to zero, `CHECK(output_op->input_operands.size() == 1)`,
and the single input operand's buffer list is returned (the map's only entry
is the first operand of the sequence). -/
def Forward (g : RuntimeGraph) (inputs : List Tensor) (fuel : Nat) : ForwardOutcome :=
  if GraphState.rank g.graph_state < GraphState.rank GraphState.Complete then
    { ops := g.operators, trace := [], result := none }
  else if g.graph_state ≠ GraphState.Complete then
    { ops := g.operators, trace := [], result := none }
  else
    match lookupIdx g.input_operators_maps g.input_name with
    | none => { ops := g.operators, trace := [], result := none }
    | some inI =>
      match lookupIdx g.output_operators_maps g.output_name with
      | none => { ops := g.operators, trace := [], result := none }
      | some outI =>
        match forwardLoop inI outI inputs fuel
            { ops := g.operators, queue := [inI], trace := [] } with
        | .finished st =>
          let opsR := st.ops.map (fun op => { op with meet_num := 0 })
          match opsR[outI]? with
          | none => { ops := opsR, trace := st.trace, result := none }
          | some outOp =>
            if outOp.inputNamesD.length = 1 then
              match outOp.input_operands_seq.head? with
              | some od => { ops := opsR, trace := st.trace, result := some od.datas }
              | none => { ops := opsR, trace := st.trace, result := none }
            else { ops := opsR, trace := st.trace, result := none }
        | .fatal st => { ops := st.ops, trace := st.trace, result := none }
        | .outOfFuel st => { ops := st.ops, trace := st.trace, result := none }

end RuntimeGraph

/-! ## Graph builder (`RuntimeGraph::Build`) -/

/-- The `input_operators_maps_` populated by `Build`: one entry per node of
type `pnnx.Input`, keyed by node name, in node order (`std::map` insertion
never overwrites, and node names are unique in well-formed graphs). -/
def computeInputMaps (ops : List RuntimeOperator) : List (String × Nat) :=
  (ops.enum.filterMap (fun p => if p.2.type = "pnnx.Input" then some (p.2.name, p.1) else none))

/-- The `output_operators_maps_` populated by `Build`: one entry per node of
type `pnnx.Output`. -/
def computeOutputMaps (ops : List RuntimeOperator) : List (String × Nat) :=
  (ops.enum.filterMap (fun p => if p.2.type = "pnnx.Output" then some (p.2.name, p.1) else none))

/-- The layer-binding loop of `Build`: sentinel nodes receive no handler;
every other node's handler is resolved through the external factory
(`RuntimeGraph::CreateLayer`), and a factory failure is fatal
(`CHECK(layer != nullptr)`). -/
def bindLayers (factory : RuntimeOperator → Option LayerFn) :
    List RuntimeOperator → Option (List RuntimeOperator)
  | [] => some []
  | op :: rest =>
    match (if op.type = "pnnx.Input" ∨ op.type = "pnnx.Output" then some op
           else match factory op with
             | none => none
             | some l => some { op with layer := l }) with
    | none => none
    | some op2 =>
      match bindLayers factory rest with
      | none => none
      | some rest2 => some (op2 :: rest2)

namespace RuntimeGraph

/-- `RuntimeGraph::Build` (lines 209-239), parametrized by the external layer
factory.  Modelled from the spec: the `graph_state_ == NeedInit` branch
delegates to `Init`, which loads the external model files (an external
collaborator, out of scope here); we model only invocations with
`graph_state ≥ NeedBuild` and map the `NeedInit` branch to an abstract
failure.  Otherwise: `CHECK(graph_state_ >= NeedBuild)`, a fatal check on an
empty operator list, the sentinel maps are cleared and rebuilt while layers
are bound, the two shape-resolution passes run, and the state becomes
`Complete` with the requested input/output names recorded. -/
def Build (factory : RuntimeOperator → Option LayerFn) (g : RuntimeGraph)
    (input_name output_name : String) : Option RuntimeGraph :=
  if g.graph_state = GraphState.NeedInit then none
  else if GraphState.rank g.graph_state < GraphState.rank GraphState.NeedBuild then none
  else if g.operators.isEmpty then none
  else
    match bindLayers factory g.operators with
    | none => none
    | some ops1 =>
      match RuntimeGraphShape.InitOperatorInputTensor ops1 with
      | none => none
      | some ops2 =>
        match RuntimeGraphShape.InitOperatorOutputTensor g.pnnx_ops ops2 with
        | none => none
        | some ops3 =>
          let g2 : RuntimeGraph := { g with
            operators := ops3,
            input_operators_maps := computeInputMaps g.operators,
            output_operators_maps := computeOutputMaps g.operators,
            graph_state := GraphState.Complete,
            input_name := input_name, output_name := output_name }
          some g2

end RuntimeGraph

/-! ## Static graph data and well-formedness -/

/-- The immutable skeleton of a node: name, type tag, consumer-edge list,
and the producer names of the ordered operand sequence.  Execution mutates
only buffer contents and the delivery counter, never the skeleton. -/
def skelOf (op : RuntimeOperator) : String × String × List Nat × List String :=
  (op.name, op.type, op.output_operators, op.input_operands_seq.map (fun od => od.name))

/-- All delivery counters are zero (the state `Forward` starts from: counters
are zero-initialized and reset at the end of every pass). -/
def meetsZero (ops : List RuntimeOperator) : Prop :=
  ∀ op ∈ ops, op.meet_num = 0

instance (ops : List RuntimeOperator) : Decidable (meetsZero ops) := by
  unfold meetsZero; infer_instance

/-- Well-formedness of a successfully built graph with designated sentinels
`inI` (input) and `outI` (output).  Every conjunct is established by
`Init`/`Build` together with the pnnx model format:
node names are unique (pnnx operator names identify nodes; the graph is
wired by name); the consumer map of a node holds each consumer once and
never the node itself (`Init` skips `next_op == current_op`); consumer
indices are in range; the input sentinel has no producers (a `pnnx.Input`
operator has no inputs). -/
def WF (ops : List RuntimeOperator) (inI outI : Nat) : Prop :=
  inI < ops.length ∧ outI < ops.length ∧ inI ≠ outI ∧
  (ops.map (fun op => op.name)).Nodup ∧
  (∀ op ∈ ops, op.output_operators.Nodup) ∧
  (∀ op ∈ ops, ∀ v ∈ op.output_operators, v < ops.length) ∧
  (∀ p ∈ ops.enum, p.1 ∉ p.2.output_operators) ∧
  ((ops[inI]?).map (fun op => op.input_operands_seq)) = some []

instance (ops : List RuntimeOperator) (inI outI : Nat) : Decidable (WF ops inI outI) := by
  unfold WF; infer_instance

/-! ## Trace observables -/

/-- The nodes whose compute handler was invoked, in firing order. -/
def firedNodes (t : List Event) : List Nat :=
  t.filterMap (fun e => match e with | .fired v _ _ => some v | _ => none)

/-- The nodes pushed onto the work queue by propagation, in push order. -/
def enqNodes (t : List Event) : List Nat :=
  t.filterMap (fun e => match e with | .enqueued v _ => some v | _ => none)

/-- The nodes re-enqueued by the not-ready retry branch. -/
def retrNodes (t : List Event) : List Nat :=
  t.filterMap (fun e => match e with | .retried v => some v | _ => none)

/-- How many times the input sentinel was processed. -/
def inputEvents (t : List Event) : Nat :=
  (t.filterMap (fun e => match e with | .inputProcessed => some 0 | _ => none)).length

/-- The producers that have delivered to node `v`, in delivery order. -/
def prodsTo (t : List Event) (v : Nat) : List Nat :=
  t.filterMap (fun e => match e with
    | .delivered u w _ _ _ => if w = v then some u else none
    | _ => none)

/-- The node stored at index `v` (total lookup; every use is guarded by a
range fact). -/
def opAt (ops : List RuntimeOperator) (v : Nat) : RuntimeOperator :=
  (ops[v]?).getD default

/-- The distinct-producer count of the node at index `v`. -/
def sizeAt (ops : List RuntimeOperator) (v : Nat) : Nat :=
  (opAt ops v).inputNamesD.length

/-- Per-event sanity relative to the static graph `ops0`: a delivery nets
exactly one increment; an enqueue happens exactly at the distinct-producer
count; a firing happens exactly at readiness. -/
def EventOk (ops0 : List RuntimeOperator) : Event → Prop
  | .delivered _ _ b a _ => a = b + 1
  | .enqueued v m => ((ops0[v]?).map (fun op => op.inputNamesD.length)) = some m
  | .fired v m k => m = k ∧ ((ops0[v]?).map (fun op => op.inputNamesD.length)) = some k
  | _ => True

/-- The trace-level properties the scheduler guarantees on a well-formed
graph: every event is sane, no node fires or is enqueued twice, the retry
branch never runs, and every node whose deliveries reached its
distinct-producer count was enqueued. -/
def GoodTrace (ops0 : List RuntimeOperator) (t : List Event) : Prop :=
  (∀ e ∈ t, EventOk ops0 e) ∧
  (firedNodes t).Nodup ∧ (enqNodes t).Nodup ∧ retrNodes t = [] ∧
  (∀ v : Nat, v < ops0.length → (prodsTo t v).length = sizeAt ops0 v →
    0 < sizeAt ops0 v → v ∈ enqNodes t)

/-- The inductive invariant of the scheduler loop, relating an execution
state to the static graph `ops0` and input sentinel `inI`.  It holds at
every `probeOne` boundary of every pass over a well-formed graph. -/
structure Inv (ops0 : List RuntimeOperator) (inI : Nat) (st : ExecState) : Prop where
  len : st.ops.length = ops0.length
  skel : ∀ v : Nat, (st.ops[v]?).map skelOf = (ops0[v]?).map skelOf
  qNodup : st.queue.Nodup
  qLt : ∀ q ∈ st.queue, q < ops0.length
  qNotInput : inI ∉ st.queue
  qReady : ∀ q ∈ st.queue, (opAt st.ops q).meet_num = (opAt st.ops q).inputNamesD.length
  qUnfired : ∀ q ∈ st.queue, q ∉ firedNodes st.trace
  meetAcc : ∀ v : Nat, v < ops0.length →
    (opAt st.ops v).meet_num = (prodsTo st.trace v).length
  prodsNodup : ∀ v : Nat, (prodsTo st.trace v).Nodup
  prodsLt : ∀ v u : Nat, u ∈ prodsTo st.trace v → u < ops0.length
  prodsName : ∀ v u : Nat, u ∈ prodsTo st.trace v →
    (opAt ops0 u).name ∈ (opAt ops0 v).inputNamesD
  prodsProcessed : ∀ v u : Nat, u ∈ prodsTo st.trace v →
    u ∈ firedNodes st.trace ∨ (u = inI ∧ inputEvents st.trace = 1)
  firedNodup : (firedNodes st.trace).Nodup
  firedLt : ∀ v ∈ firedNodes st.trace, v < ops0.length
  firedNotInput : inI ∉ firedNodes st.trace
  firedMax : ∀ v ∈ firedNodes st.trace,
    (opAt st.ops v).meet_num = (opAt st.ops v).inputNamesD.length
  enqNodup : (enqNodes st.trace).Nodup
  enqLt : ∀ v ∈ enqNodes st.trace, v < ops0.length
  enqMax : ∀ v ∈ enqNodes st.trace,
    (opAt st.ops v).meet_num = (opAt st.ops v).inputNamesD.length
  inputOnce : inputEvents st.trace ≤ 1
  retrNone : retrNodes st.trace = []
  evOk : ∀ e ∈ st.trace, EventOk ops0 e
  reachEnq : ∀ v : Nat, v < ops0.length →
    (prodsTo st.trace v).length = sizeAt ops0 v → 0 < sizeAt ops0 v →
    v ∈ enqNodes st.trace

/-- The state carried by a propagation-step result. -/
def PRes.state : PRes → ExecState
  | .ok st => st
  | .fatal st => st

/-- Graph-level well-formedness for a `Forward` call: state `Complete`, the
designated input/output names resolve in the sentinel maps to `inI`/`outI`,
the node store is well-formed, and all delivery counters are zero (as at the
start of every pass). -/
def WFGraph (g : RuntimeGraph) (inI outI : Nat) : Prop :=
  g.graph_state = GraphState.Complete ∧
  lookupIdx g.input_operators_maps g.input_name = some inI ∧
  lookupIdx g.output_operators_maps g.output_name = some outI ∧
  WF g.operators inI outI ∧ meetsZero g.operators

instance (g : RuntimeGraph) (inI outI : Nat) : Decidable (WFGraph g inI outI) := by
  unfold WFGraph; infer_instance

/-! ## Concrete witness data for the scheduler

A linear chain `I → A → O` of shape `[1,3]`.  Node `A` deliberately lists
its producer `I` twice in the ordered operand sequence (the second, dead
operand is what `Init` leaves for a duplicated reference: the map keeps only
the first), so its distinct-producer count is 1 while the sequence length is
2 — separating the two counts the claims distinguish. -/

/-- An external input buffer carrying payload token 42. -/
def tIn : Tensor := { channels := 1, rows := 3, cols := 1, payload := 42 }

/-- A zero buffer of the same dimensions. -/
def tZero : Tensor := { channels := 1, rows := 3, cols := 1, payload := 0 }

/-- Node `A`'s map operand for producer `I` (first occurrence, allocated). -/
def odAI1 : RuntimeOperand :=
  { name := "I", type := RuntimeDataType.kTypeFloat32, shapes := [1, 3], datas := [tZero] }

/-- Node `A`'s dead duplicate operand for producer `I` (never written). -/
def odAI2 : RuntimeOperand :=
  { name := "I", type := RuntimeDataType.kTypeFloat32, shapes := [1, 3], datas := [] }

/-- Node `O`'s operand for producer `A`. -/
def odOA : RuntimeOperand :=
  { name := "A", type := RuntimeDataType.kTypeFloat32, shapes := [1, 3], datas := [tZero] }

/-- Node `A`'s output operand. -/
def odAout : RuntimeOperand :=
  { name := "A_output", type := RuntimeDataType.kTypeFloat32, shapes := [1, 3],
    datas := [tZero] }

/-- The input sentinel node. -/
def nodeI : RuntimeOperator :=
  { name := "I", type := "pnnx.Input", input_operands_seq := [],
    output_operands := none, output_operators := [1],
    layer := fun _ _ => none, meet_num := 0 }

/-- The compute node `A`; its handler adds 100 to each payload token. -/
def nodeA : RuntimeOperator :=
  { name := "A", type := "nn.ReLU", input_operands_seq := [odAI1, odAI2],
    output_operands := some odAout, output_operators := [2],
    layer := fun ins _ => some (ins.map (fun t => t.payload + 100)), meet_num := 0 }

/-- The output sentinel node. -/
def nodeO : RuntimeOperator :=
  { name := "O", type := "pnnx.Output", input_operands_seq := [odOA],
    output_operands := none, output_operators := [],
    layer := fun _ _ => none, meet_num := 0 }

/-- The built chain graph in `Complete` state. -/
def gChain : RuntimeGraph :=
  { operators := [nodeI, nodeA, nodeO], pnnx_ops := [],
    graph_state := GraphState.Complete,
    input_operators_maps := [("I", 0)], output_operators_maps := [("O", 2)],
    input_name := "I", output_name := "O" }

/-- A mid-pass execution state (empty queue) used to exercise `probeOne`
directly. -/
def stChain : ExecState :=
  { ops := [nodeI, nodeA, nodeO], queue := [], trace := [] }

/-- The state `probeOne` produces when node `I` delivers the external input
to node `A` from `stChain`. -/
def stChain2 : ExecState :=
  match RuntimeGraph.probeOne 0 "I" [tIn] stChain 1 with
  | .ok st => st
  | .fatal st => st

/-- A state whose queue already contains the consumer `A`, to exercise the
already-queued branch of `probeOne`. -/
def stChainQ : ExecState :=
  { ops := [nodeI, nodeA, nodeO], queue := [1], trace := [] }

/-- The state `probeOne` produces from `stChainQ`. -/
def stChainQ2 : ExecState :=
  match RuntimeGraph.probeOne 0 "I" [tIn] stChainQ 1 with
  | .ok st => st
  | .fatal st => st

/-! ### Concrete witness data for `Build` idempotence -/

/-- A three-node graph `I → B → O` in `Complete` state exactly as a first
`Build` leaves a 4-D model: the middle node holds a present 4-D output
operand (declared shape `[1,2,3,4]`) with its one allocated `2×3×4` buffer
and a matching resolved input operand, so a re-run of both shape passes
visits the present-operand branches and is stationary; the pnnx descriptors
declare that 4-D output for `B` and none for the sentinels. -/
def gBuilt : RuntimeGraph :=
  { operators :=
      [{ name := "I", type := "pnnx.Input", input_operands_seq := [],
         output_operands := none, output_operators := [1],
         layer := fun _ _ => none, meet_num := 0 },
       { name := "B", type := "nn.ReLU",
         input_operands_seq := [{ name := "I", type := RuntimeDataType.kTypeFloat32, shapes := [1, 2, 3, 4], datas := [{ channels := 2, rows := 3, cols := 4, payload := 0 }] }],
         output_operands := some { name := "b0_output", type := RuntimeDataType.kTypeFloat32, shapes := [1, 2, 3, 4], datas := [{ channels := 2, rows := 3, cols := 4, payload := 0 }] },
         output_operators := [2],
         layer := fun _ _ => none, meet_num := 0 },
       { name := "O", type := "pnnx.Output", input_operands_seq := [],
         output_operands := none, output_operators := [],
         layer := fun _ _ => none, meet_num := 0 }],
    pnnx_ops := [{ outputs := [] },
                 { outputs := [{ name := "b0", shape := [1, 2, 3, 4] }] },
                 { outputs := [] }],
    graph_state := GraphState.Complete,
    input_operators_maps := [("I", 0)], output_operators_maps := [("O", 2)],
    input_name := "I", output_name := "O" }

/-- A layer factory binding the trivial handler to every non-sentinel node
(the handler bound to `gBuilt`'s middle node, so re-binding through it is
the identity). -/
def factoryB : RuntimeOperator → Option LayerFn := fun _ => some (fun _ _ => none)

/-- A not-yet-built linear chain `I → A → O` over the spec's 2-D shape
`[1,3]`: state `NeedBuild`, no buffers anywhere, sentinel maps still empty,
pnnx descriptors declaring one 2-D output operand for `I` and `A` and none
for the output sentinel. -/
def gChainPre : RuntimeGraph :=
  { operators :=
      [{ name := "I", type := "pnnx.Input", input_operands_seq := [],
         output_operands := none, output_operators := [1],
         layer := fun _ _ => none, meet_num := 0 },
       { name := "A", type := "nn.ReLU",
         input_operands_seq := [{ name := "I", type := RuntimeDataType.kTypeFloat32, shapes := [1, 3], datas := [] }],
         output_operands := none, output_operators := [2],
         layer := fun _ _ => none, meet_num := 0 },
       { name := "O", type := "pnnx.Output",
         input_operands_seq := [{ name := "A", type := RuntimeDataType.kTypeFloat32, shapes := [1, 3], datas := [] }],
         output_operands := none, output_operators := [],
         layer := fun _ _ => none, meet_num := 0 }],
    pnnx_ops := [{ outputs := [{ name := "i0", shape := [1, 3] }] },
                 { outputs := [{ name := "a0", shape := [1, 3] }] },
                 { outputs := [] }],
    graph_state := GraphState.NeedBuild,
    input_operators_maps := [], output_operators_maps := [],
    input_name := "", output_name := "" }

/-- The graph the first `Build` produces from `gChainPre`: `Complete`, with
2-D output operands now present on `I` and `A`, each holding its one
allocated `1×3×1` buffer. -/
def gBuilt2 : RuntimeGraph :=
  (RuntimeGraph.Build factoryB gChainPre "I" "O").getD gChainPre

/-- The behaviour range the C7 claim allows a second `Build` on an
already-`Complete` graph (the claim's words): at minimum the call is
rejected with a state error — one of the lifecycle guards fires, the
`NeedInit` branch or `CHECK(graph_state_ >= NeedBuild)` — at most it is a
no-op, returning the graph unchanged. -/
def specSecondBuildRange (factory : RuntimeOperator → Option LayerFn)
    (g : RuntimeGraph) (a b : String) : Prop :=
  (g.graph_state = GraphState.NeedInit ∨
    GraphState.rank g.graph_state < GraphState.rank GraphState.NeedBuild) ∨
  RuntimeGraph.Build factory g a b = some g

/-! ## Theorems: shape resolver -/

/-- The per-buffer check evaluates without exception once the rank is 2 or 4,
and agrees with the mod-2^32 match condition. -/
theorem checkInputBuffer_getD (shapes : List Int) (t : Tensor)
    (h : shapes.length = 2 ∨ shapes.length = 4) :
    (RuntimeGraphShape.checkInputBuffer shapes t).getD false = bufferMatchModU32 shapes t := by
  rcases h with h | h
  · rcases shapes with _ | ⟨a, _ | ⟨b, _ | ⟨c, rest⟩⟩⟩ <;> simp_all
    simp [RuntimeGraphShape.checkInputBuffer, bufferMatchModU32]
    cases hc : (t.channels == 1) <;> cases hr : (t.rows == toU32 b) <;>
      cases hw : (t.cols == 1) <;> simp [hc, hr, hw]
  · rcases shapes with _ | ⟨a, _ | ⟨b, _ | ⟨c, _ | ⟨d, _ | ⟨e, rest⟩⟩⟩⟩⟩ <;> simp_all
    simp [RuntimeGraphShape.checkInputBuffer, bufferMatchModU32]

/-- The buffer-validation loop agrees with the mod-2^32 match on every
buffer, given a valid rank. -/
theorem checkAllBuffers_eq (shapes : List Int) (ds : List Tensor)
    (h : shapes.length = 2 ∨ shapes.length = 4) :
    RuntimeGraphShape.checkAllBuffers shapes ds =
      ds.all (fun t => bufferMatchModU32 shapes t) := by
  unfold RuntimeGraphShape.checkAllBuffers
  induction ds with
  | nil => rfl
  | cons t rest ih => simp only [List.all_cons, ih, checkInputBuffer_getD shapes t h]

/-- Characterization of acceptance by `initInputOperand`. -/
theorem initInputOperand_isSome_iff (od : RuntimeOperand) :
    (RuntimeGraphShape.initInputOperand od).isSome = true ↔
      (od.type = RuntimeDataType.kTypeFloat32 ∧
       ∃ b, od.shapes[0]? = some b ∧ 0 ≤ b ∧
         (od.shapes.length = 2 ∨ od.shapes.length = 4) ∧
         (od.datas = [] ∨ (od.datas.length = b.toNat ∧
           RuntimeGraphShape.checkAllBuffers od.shapes od.datas = true))) := by
  unfold RuntimeGraphShape.initInputOperand
  by_cases htype : od.type = RuntimeDataType.kTypeFloat32
  · cases h0 : od.shapes[0]? with
    | none => simp [htype, h0]
    | some b =>
      by_cases hb : b < 0
      · simp [htype, h0, hb, not_le.mpr hb]
      · by_cases hrank : od.shapes.length = 2 ∨ od.shapes.length = 4
        · by_cases hempty : od.datas.isEmpty
          · simp_all [List.isEmpty_iff, not_lt.mp hb]
          · by_cases hlen : od.datas.length = b.toNat
            · by_cases hchk : RuntimeGraphShape.checkAllBuffers od.shapes od.datas
              · simp_all [List.isEmpty_iff, not_lt.mp hb]
              · simp_all [List.isEmpty_iff]
            · simp_all [List.isEmpty_iff]
        · simp [htype, h0, hb, hrank]
  · simp [htype]

/-- `getD 0` agrees with a successful index-0 lookup. -/
theorem getD_zero_eq {l : List Int} {b : Int} (h : l[0]? = some b) : l.getD 0 0 = b := by
  cases l with
  | nil => simp at h
  | cons x xs => simp at h; simp_all [List.getD_cons_zero]

/-- Characterization of the amended acceptance predicate. -/
theorem amendedInputAcceptB_iff (od : RuntimeOperand) :
    amendedInputAcceptB od = true ↔
      (od.type = RuntimeDataType.kTypeFloat32 ∧
       ∃ b, od.shapes[0]? = some b ∧ 0 ≤ b ∧
         (od.shapes.length = 2 ∨ od.shapes.length = 4) ∧
         (od.datas = [] ∨ (od.datas.length = b.toNat ∧
           RuntimeGraphShape.checkAllBuffers od.shapes od.datas = true))) := by
  unfold amendedInputAcceptB
  cases h0 : od.shapes[0]? with
  | none => simp [h0]
  | some b =>
    constructor
    · intro h
      simp only [Bool.and_eq_true, Bool.or_eq_true, beq_iff_eq, decide_eq_true_eq,
        List.isEmpty_iff] at h
      obtain ⟨⟨⟨ht, hb⟩, hrank⟩, hrest⟩ := h
      refine ⟨ht, b, rfl, hb, ?_, ?_⟩
      · rcases hrank with h | h
        · exact Or.inl (by exact Nat.beq_eq_true_eq _ _ ▸ h)
        · exact Or.inr (by exact Nat.beq_eq_true_eq _ _ ▸ h)
      · rcases hrest with h | ⟨hlen, hall⟩
        · exact Or.inl h
        · refine Or.inr ⟨?_, ?_⟩
          · rw [getD_zero_eq h0] at hlen
            exact hlen
          · have hrank2 : od.shapes.length = 2 ∨ od.shapes.length = 4 := by
              rcases hrank with h | h
              · exact Or.inl (by simpa using h)
              · exact Or.inr (by simpa using h)
            rw [checkAllBuffers_eq od.shapes od.datas hrank2]
            exact hall
    · rintro ⟨ht, b2, hb2, hble, hrank, hrest⟩
      have hbb : b2 = b := (Option.some_inj.mp hb2).symm
      subst hbb
      have hg : od.shapes.getD 0 0 = b2 := getD_zero_eq h0
      simp only [Bool.and_eq_true, Bool.or_eq_true, beq_iff_eq, decide_eq_true_eq,
        List.isEmpty_iff, h0, hg]
      refine ⟨⟨⟨ht, hble⟩, ?_⟩, ?_⟩
      · rcases hrank with h | h
        · exact Or.inl (by simpa using h)
        · exact Or.inr (by simpa using h)
      · rcases hrest with h | ⟨hlen, hall⟩
        · exact Or.inl h
        · refine Or.inr ⟨by simpa using hlen, ?_⟩
          rw [← checkAllBuffers_eq od.shapes od.datas hrank]
          exact hall

/-- **C6, counterexample.**  The claim states that a pre-existing buffer is
accepted only when its dimensions equal the declared non-batch dimensions
exactly.  `cxOperand` declares the 4-D shape `[1, -1, 2, 3]` and carries one
buffer of dimensions `4294967295×2×3`: the code accepts it (the C++
comparison converts the signed `-1` to `uint32_t` `4294967295`), while the
claim's exact-match condition rejects it. -/
theorem claim_C6_counterexample :
    (RuntimeGraphShape.initInputOperand cxOperand).isSome = true ∧
      specInputAcceptB cxOperand = false := by decide

/-- **C6 (amended).**  Input-shape resolution accepts an operand iff its
element type is float32, its shape rank is 2 or 4, its batch (`shape[0]`) is
non-negative, and — when buffers pre-exist — the buffer count equals the
batch and each buffer's dimensions match the declared non-batch dimensions
after the C++ `uint32_t` conversion of the signed declared values (4-D:
channel/height/width mod 2^32; 2-D: a `1×features×1` buffer with features
taken mod 2^32); an accepted operand with pre-existing buffers is returned
unchanged, and otherwise `batch` fresh buffers with the converted dimensions
are allocated. -/
theorem claim_C6_amended (od : RuntimeOperand) :
    ((RuntimeGraphShape.initInputOperand od).isSome = amendedInputAcceptB od) ∧
    (∀ od2, RuntimeGraphShape.initInputOperand od = some od2 →
      (od.datas ≠ [] → od2 = od) ∧
      (od.datas = [] → ∃ b, od.shapes[0]? = some b ∧
        od2 = { od with datas := RuntimeGraphShape.allocBuffers od.shapes b })) := by
  constructor
  · exact Bool.coe_iff_coe.mp
      ((initInputOperand_isSome_iff od).trans (amendedInputAcceptB_iff od).symm)
  · intro od2 h
    unfold RuntimeGraphShape.initInputOperand at h
    by_cases htype : od.type = RuntimeDataType.kTypeFloat32
    · cases h0 : od.shapes[0]? with
      | none => simp [htype, h0] at h
      | some b =>
        by_cases hb : b < 0
        · simp [htype, h0, hb] at h
        · by_cases hrank : od.shapes.length = 2 ∨ od.shapes.length = 4
          · by_cases hempty : od.datas.isEmpty
            · constructor
              · intro hne
                exact absurd (List.isEmpty_iff.mp hempty) hne
              · intro _
                refine ⟨b, rfl, ?_⟩
                simp only [htype, h0, hb, hrank, hempty, ne_eq, not_true_eq_false,
                  if_false, if_neg hb, not_true_eq_false, ite_true, ite_false] at h
                simp_all
            · constructor
              · intro _
                by_cases hlen : od.datas.length = b.toNat
                · by_cases hchk : RuntimeGraphShape.checkAllBuffers od.shapes od.datas
                  · simp_all
                  · simp_all
                · simp_all
              · intro he
                exact absurd (List.isEmpty_iff.mpr he) hempty
          · simp [htype, h0, hb, hrank] at h
    · simp [htype] at h

/-- **C8.**  During output-shape resolution: a descriptor declaring more than
one output operand is fatal; when the node's output operand is absent (and
the declared shape passes the batch/rank constraints) it is created with
float32 type, the declared shape, one buffer per batch element, and the name
`<descriptor operand name>_output`; when it is present, a batch-count, type,
or shape disagreement with the external descriptor is fatal. -/
theorem claim_C8 (pop : PnnxOperator) (op : RuntimeOperator) :
    (1 < pop.outputs.length → RuntimeGraphShape.initOpOutput pop op = none) ∧
    (∀ pnxOd batch, pop.outputs = [pnxOd] → pnxOd.shape[0]? = some batch →
      0 ≤ batch → (pnxOd.shape.length = 2 ∨ pnxOd.shape.length = 4) →
      op.output_operands = none →
      RuntimeGraphShape.initOpOutput pop op =
        some { op with output_operands := some (createdOutputOperand pnxOd batch) } ∧
      (RuntimeGraphShape.allocBuffers pnxOd.shape batch).length = batch.toNat) ∧
    (∀ pnxOd outOd batch, pop.outputs = [pnxOd] → op.output_operands = some outOd →
      pnxOd.shape[0]? = some batch →
      (outOd.datas.length ≠ batch.toNat ∨ outOd.type ≠ RuntimeDataType.kTypeFloat32 ∨
        outOd.shapes ≠ pnxOd.shape) →
      RuntimeGraphShape.initOpOutput pop op = none) := by
  refine ⟨?_, ?_, ?_⟩
  · intro hgt
    unfold RuntimeGraphShape.initOpOutput
    simp [hgt]
  · intro pnxOd batch houts h0 hb hrank habs
    constructor
    · unfold RuntimeGraphShape.initOpOutput
      simp [houts, h0, not_lt.mpr hb, hrank, habs, createdOutputOperand]
    · unfold RuntimeGraphShape.allocBuffers
      simp
  · intro pnxOd outOd batch houts hout h0 hmis
    unfold RuntimeGraphShape.initOpOutput
    rw [houts]
    simp only [List.length_cons, List.length_nil, List.head?_cons, h0, hout]
    by_cases hb : batch < 0
    · simp [hb]
    · by_cases hrank : pnxOd.shape.length = 2 ∨ pnxOd.shape.length = 4
      · by_cases hlen : outOd.datas.length = batch.toNat
        · by_cases htype : outOd.type = RuntimeDataType.kTypeFloat32
          · by_cases hsh : outOd.shapes = pnxOd.shape
            · rcases hmis with h | h | h <;> simp_all
            · simp [hb, hrank, hlen, htype, hsh]
          · simp [hb, hrank, hlen, htype]
        · simp [hb, hrank, hlen]
      · simp [hb, hrank]

/-- Witness for `claim_C6_amended`: the buffer-less 2-D operand
`allocOperand` is accepted and resolved by allocating two fresh `1×5×1`
buffers. -/
theorem claim_C6_witness :
    ((RuntimeGraphShape.initInputOperand allocOperand).isSome =
      amendedInputAcceptB allocOperand) ∧
    (∃ b, allocOperand.shapes[0]? = some b ∧
      allocOperandRes =
        { allocOperand with datas := RuntimeGraphShape.allocBuffers allocOperand.shapes b }) :=
  ⟨(claim_C6_amended allocOperand).1,
   ((claim_C6_amended allocOperand).2 allocOperandRes (by rfl)).2 (by rfl)⟩

/-- Witness for `claim_C8`: the node `opC8` (no output operand yet) paired
with the 4-D descriptor `popC8` gets an output operand `n_output` created
with one buffer for its batch of 1. -/
theorem claim_C8_witness :
    RuntimeGraphShape.initOpOutput popC8 opC8 =
      some { opC8 with output_operands := some (createdOutputOperand pnxC8 1) } ∧
    (RuntimeGraphShape.allocBuffers pnxC8.shape 1).length = (1 : Int).toNat :=
  (claim_C8 popC8 opC8).2.1 pnxC8 1 rfl rfl (by decide) (by decide) rfl

/-! ## Theorems: propagation (`ProbeNextLayer`) -/

/-- **C2.**  For every delivery during propagation — a consumer edge whose
consumer's input-operand map contains the producer's name, with the buffer
copy succeeding — the consumer's delivery counter increases by exactly one
in net effect, whether or not the consumer was already present in the work
queue (the already-queued branch skips the transient
increment/test/decrement but still performs the final increment). -/
theorem claim_C2 (curIdx : Nat) (curName : String) (outDatas : List Tensor)
    (st : ExecState) (j : Nat) (st2 : ExecState) (opj : RuntimeOperator)
    (hj : st.ops[j]? = some opj)
    (hmatch : opj.findInputOperand curName ≠ none)
    (hok : RuntimeGraph.probeOne curIdx curName outDatas st j = PRes.ok st2) :
    ∃ opj2, st2.ops[j]? = some opj2 ∧ opj2.meet_num = opj.meet_num + 1 := by
  have hjlt : j < st.ops.length := (List.getElem?_eq_some.mp hj).1
  unfold RuntimeGraph.probeOne at hok
  rw [hj] at hok
  dsimp only at hok
  cases hfind : opj.findInputOperand curName with
  | none => exact absurd hfind hmatch
  | some od =>
    rw [hfind] at hok
    dsimp only at hok
    cases hset : RuntimeGraph.SetOpInputData outDatas od.datas with
    | none => rw [hset] at hok; exact absurd hok (by simp)
    | some newDatas =>
      rw [hset] at hok
      dsimp only at hok
      by_cases hq : j ∈ st.queue
      · rw [if_pos hq] at hok
        cases hok
        refine ⟨_, List.getElem?_set_self hjlt, ?_⟩
        rfl
      · rw [if_neg hq] at hok
        cases hchk : RuntimeGraph.CheckOperatorReady
            { opj.setInputOperandDatas curName newDatas with
              meet_num := (opj.setInputOperandDatas curName newDatas).meet_num + 1 } with
        | none => rw [hchk] at hok; exact absurd hok (by simp)
        | some ready =>
          rw [hchk] at hok
          dsimp only at hok
          cases hok
          refine ⟨{ opj.setInputOperandDatas curName newDatas with
              meet_num := (opj.setInputOperandDatas curName newDatas).meet_num + 1 - 1 + 1 },
            List.getElem?_set_self hjlt, ?_⟩
          show (opj.setInputOperandDatas curName newDatas).meet_num + 1 - 1 + 1 =
            opj.meet_num + 1
          have hsame : (opj.setInputOperandDatas curName newDatas).meet_num =
            opj.meet_num := rfl
          omega

/-- Witness for `claim_C2`: from `stChain`, node `I` delivering the external
input bumps node `A`'s counter from 0 to 1. -/
theorem claim_C2_witness :
    ∃ opj2, stChain2.ops[1]? = some opj2 ∧ opj2.meet_num = nodeA.meet_num + 1 :=
  claim_C2 0 "I" [tIn] stChain 1 stChain2 nodeA (by rfl) (by decide) (by rfl)

/-- **C10.**  A consumer edge whose consumer does not list the producing
node's name in its input-operand map is skipped entirely: `probeOne` returns
the state unchanged — no buffer is copied into that consumer, its delivery
counter is untouched, it is not enqueued, and no event is recorded. -/
theorem claim_C10 (curIdx : Nat) (curName : String) (outDatas : List Tensor)
    (st : ExecState) (j : Nat) (opj : RuntimeOperator)
    (hj : st.ops[j]? = some opj)
    (hmiss : opj.findInputOperand curName = none) :
    RuntimeGraph.probeOne curIdx curName outDatas st j = PRes.ok st := by
  unfold RuntimeGraph.probeOne
  rw [hj]
  dsimp only
  rw [hmiss]

/-- Witness for `claim_C10`: node `O` does not list producer `I`, so `I`'s
delivery pass leaves the whole state unchanged. -/
theorem claim_C10_witness :
    RuntimeGraph.probeOne 0 "I" [tIn] stChain 2 = PRes.ok stChain :=
  claim_C10 0 "I" [tIn] stChain 2 nodeO (by rfl) (by decide)

/-! ## Theorems: Forward pre/postconditions -/

/-- **C5.**  Calling `Forward` when the lifecycle state is not exactly
`Complete` is rejected by the state guard before anything runs: the node
store is returned untouched (no buffer write, no counter change), the event
trace is empty (no handler invocation, no delivery), and no result is
produced. -/
theorem claim_C5 (g : RuntimeGraph) (inputs : List Tensor) (fuel : Nat)
    (h : g.graph_state ≠ GraphState.Complete) :
    g.Forward inputs fuel = { ops := g.operators, trace := [], result := none } := by
  unfold RuntimeGraph.Forward
  cases hs : g.graph_state <;> simp_all [GraphState.rank]

/-- Witness for `claim_C5`: the chain graph demoted to `NeedBuild` is
rejected with an untouched state. -/
theorem claim_C5_witness :
    RuntimeGraph.Forward { gChain with graph_state := GraphState.NeedBuild } [tIn] 10 =
      { ops := { gChain with graph_state := GraphState.NeedBuild }.operators,
        trace := [], result := none } :=
  claim_C5 { gChain with graph_state := GraphState.NeedBuild } [tIn] 10 (by decide)

/-- **C4.**  Every `Forward` call that returns a result has reset every
node's delivery counter to zero, found exactly one entry in the output
sentinel's input-operand map (`CHECK(size == 1)`; any other size is fatal
and returns nothing), and returns precisely that single input operand's
buffer list (the map's sole entry is the first operand of the sequence). -/
theorem claim_C4 (g : RuntimeGraph) (inputs : List Tensor) (fuel : Nat)
    (res : List Tensor)
    (h : (g.Forward inputs fuel).result = some res) :
    (∀ op ∈ (g.Forward inputs fuel).ops, op.meet_num = 0) ∧
    (∃ outI outOp, lookupIdx g.output_operators_maps g.output_name = some outI ∧
      (g.Forward inputs fuel).ops[outI]? = some outOp ∧
      outOp.inputNamesD.length = 1 ∧
      ∃ od, outOp.input_operands_seq.head? = some od ∧ res = od.datas) := by
  unfold RuntimeGraph.Forward at h ⊢
  by_cases h1 : GraphState.rank g.graph_state < GraphState.rank GraphState.Complete
  · simp [h1] at h
  · rw [if_neg h1] at h ⊢
    by_cases h2 : g.graph_state ≠ GraphState.Complete
    · simp [h2] at h
    · rw [if_neg h2] at h ⊢
      cases hin : lookupIdx g.input_operators_maps g.input_name with
      | none => rw [hin] at h; simp at h
      | some inI =>
        rw [hin] at h
        dsimp only at h ⊢
        cases hout : lookupIdx g.output_operators_maps g.output_name with
        | none => rw [hout] at h; simp at h
        | some outI =>
          rw [hout] at h
          dsimp only at h ⊢
          cases hloop : RuntimeGraph.forwardLoop inI outI inputs fuel
              { ops := g.operators, queue := [inI], trace := [] } with
          | finished st =>
            rw [hloop] at h
            dsimp only at h ⊢
            cases hget : (st.ops.map (fun op => { op with meet_num := 0 }))[outI]? with
            | none => rw [hget] at h; simp at h
            | some outOp =>
              rw [hget] at h
              dsimp only at h ⊢
              by_cases hlen : outOp.inputNamesD.length = 1
              · rw [if_pos hlen] at h ⊢
                cases hhead : outOp.input_operands_seq.head? with
                | none => rw [hhead] at h; simp at h
                | some od =>
                  rw [hhead] at h
                  dsimp only at h ⊢
                  simp only [Option.some_inj] at h
                  constructor
                  · intro op hop
                    simp only [List.mem_map] at hop
                    obtain ⟨op0, _, rfl⟩ := hop
                    rfl
                  · exact ⟨outI, outOp, rfl, hget, hlen, od, hhead, h.symm⟩
              · rw [if_neg hlen] at h; simp at h
          | fatal st => rw [hloop] at h; simp at h
          | outOfFuel st => rw [hloop] at h; simp at h

/-- Witness for `claim_C4`: the chain run returns node `A`'s propagated
buffers and leaves all counters at zero. -/
theorem claim_C4_witness :
    (∀ op ∈ (gChain.Forward [tIn] 10).ops, op.meet_num = 0) ∧
    (∃ outI outOp, lookupIdx gChain.output_operators_maps gChain.output_name = some outI ∧
      (gChain.Forward [tIn] 10).ops[outI]? = some outOp ∧
      outOp.inputNamesD.length = 1 ∧
      ∃ od, outOp.input_operands_seq.head? = some od ∧
        [{ channels := 1, rows := 3, cols := 1, payload := 142 }] = od.datas) :=
  claim_C4 gChain [tIn] 10 [{ channels := 1, rows := 3, cols := 1, payload := 142 }] (by rfl)

/-! ## Theorems: Build idempotence -/

/-- Updating buffer contents never changes the operand names of the
sequence. -/
theorem setDatasFirst_names (l : List RuntimeOperand) (k : String) (ds : List Tensor) :
    (setDatasFirst l k ds).map (fun od => od.name) = l.map (fun od => od.name) := by
  induction l with
  | nil => rfl
  | cons od rest ih =>
    unfold setDatasFirst
    by_cases h : od.name = k
    · simp [h]
    · simp [h, ih]

/-- Writing through the input-operand map preserves a node's skeleton. -/
theorem skelOf_setInputOperandDatas (op : RuntimeOperator) (k : String) (ds : List Tensor) :
    skelOf (op.setInputOperandDatas k ds) = skelOf op := by
  unfold skelOf RuntimeOperator.setInputOperandDatas
  simp [setDatasFirst_names]

/-- The input-shape pass over one node preserves its skeleton. -/
theorem initNames_skel : ∀ (names : List String) (op op2 : RuntimeOperator),
    RuntimeGraphShape.initNames op names = some op2 → skelOf op2 = skelOf op
  | [], op, op2, h => by
    unfold RuntimeGraphShape.initNames at h
    cases h
    rfl
  | nm :: rest, op, op2, h => by
    unfold RuntimeGraphShape.initNames at h
    cases hf : op.findInputOperand nm with
    | none =>
      rw [hf] at h
      dsimp only at h
      exact initNames_skel rest op op2 h
    | some od =>
      rw [hf] at h
      dsimp only at h
      cases hi : RuntimeGraphShape.initInputOperand od with
      | none => rw [hi] at h; simp at h
      | some od2 =>
        rw [hi] at h
        dsimp only at h
        have hrec := initNames_skel rest _ op2 h
        rw [hrec, skelOf_setInputOperandDatas]

/-- `initOpInputs` preserves the skeleton. -/
theorem initOpInputs_skel (op op2 : RuntimeOperator)
    (h : RuntimeGraphShape.initOpInputs op = some op2) : skelOf op2 = skelOf op := by
  unfold RuntimeGraphShape.initOpInputs at h
  by_cases he : op.input_operands_seq.isEmpty
  · rw [if_pos he] at h; cases h; rfl
  · rw [if_neg he] at h; exact initNames_skel _ op op2 h

/-- The per-operator loop of the input pass preserves skeletons. -/
theorem initInputGo_skel : ∀ (ops ops2 : List RuntimeOperator),
    RuntimeGraphShape.InitOperatorInputTensor.go ops = some ops2 →
    ops2.map skelOf = ops.map skelOf
  | [], ops2, h => by
    unfold RuntimeGraphShape.InitOperatorInputTensor.go at h
    cases h
    rfl
  | op :: rest, ops2, h => by
    unfold RuntimeGraphShape.InitOperatorInputTensor.go at h
    cases h1 : RuntimeGraphShape.initOpInputs op with
    | none => rw [h1] at h; simp at h
    | some op2 =>
      rw [h1] at h
      dsimp only at h
      cases h2 : RuntimeGraphShape.InitOperatorInputTensor.go rest with
      | none => rw [h2] at h; simp at h
      | some rest2 =>
        rw [h2] at h
        dsimp only at h
        cases h
        simp [initOpInputs_skel op op2 h1, initInputGo_skel rest rest2 h2]

/-- `InitOperatorInputTensor` preserves skeletons. -/
theorem initInputPass_skel (ops ops2 : List RuntimeOperator)
    (h : RuntimeGraphShape.InitOperatorInputTensor ops = some ops2) :
    ops2.map skelOf = ops.map skelOf := by
  unfold RuntimeGraphShape.InitOperatorInputTensor at h
  by_cases he : ops.isEmpty
  · rw [if_pos he] at h; cases h; rfl
  · rw [if_neg he] at h; exact initInputGo_skel ops ops2 h

/-- `initOpOutput` preserves the skeleton (it at most installs an output
operand). -/
theorem initOpOutput_skel (pop : PnnxOperator) (op op2 : RuntimeOperator)
    (h : RuntimeGraphShape.initOpOutput pop op = some op2) : skelOf op2 = skelOf op := by
  unfold RuntimeGraphShape.initOpOutput at h
  by_cases h1 : 1 < pop.outputs.length
  · rw [if_pos h1] at h; simp at h
  · rw [if_neg h1] at h
    cases hh : pop.outputs.head? with
    | none => rw [hh] at h; dsimp only at h; cases h; rfl
    | some pnxOd =>
      rw [hh] at h
      dsimp only at h
      cases hb : pnxOd.shape[0]? with
      | none => rw [hb] at h; simp at h
      | some batch =>
        rw [hb] at h
        dsimp only at h
        by_cases hneg : batch < 0
        · rw [if_pos hneg] at h; simp at h
        · rw [if_neg hneg] at h
          by_cases hrank : ¬(pnxOd.shape.length = 2 ∨ pnxOd.shape.length = 4)
          · rw [if_pos hrank] at h; simp at h
          · rw [if_neg hrank] at h
            cases ho : op.output_operands with
            | none => rw [ho] at h; dsimp only at h; cases h; rfl
            | some outOd =>
              rw [ho] at h
              dsimp only at h
              by_cases hl : outOd.datas.length ≠ batch.toNat
              · rw [if_pos hl] at h; simp at h
              · rw [if_neg hl] at h
                by_cases ht : outOd.type ≠ RuntimeDataType.kTypeFloat32
                · rw [if_pos ht] at h; simp at h
                · rw [if_neg ht] at h
                  by_cases hs : outOd.shapes ≠ pnxOd.shape
                  · rw [if_pos hs] at h; simp at h
                  · rw [if_neg hs] at h
                    by_cases hg : outOd.datas.isEmpty
                    · rw [if_pos hg] at h; cases h; rfl
                    · rw [if_neg hg] at h
                      split at h
                      · cases h; rfl
                      · simp at h

/-- The pairwise loop of the output pass preserves skeletons. -/
theorem initOutputGo_skel : ∀ (pnnxOps : List PnnxOperator) (ops ops2 : List RuntimeOperator),
    RuntimeGraphShape.InitOperatorOutputTensor.go pnnxOps ops = some ops2 →
    ops2.map skelOf = ops.map skelOf
  | [], [], ops2, h => by
    unfold RuntimeGraphShape.InitOperatorOutputTensor.go at h
    cases h
    rfl
  | [], _ :: _, ops2, h => by
    unfold RuntimeGraphShape.InitOperatorOutputTensor.go at h
    simp at h
  | _ :: _, [], ops2, h => by
    unfold RuntimeGraphShape.InitOperatorOutputTensor.go at h
    simp at h
  | pop :: prest, op :: orest, ops2, h => by
    unfold RuntimeGraphShape.InitOperatorOutputTensor.go at h
    cases h1 : RuntimeGraphShape.initOpOutput pop op with
    | none => rw [h1] at h; simp at h
    | some op2 =>
      rw [h1] at h
      dsimp only at h
      cases h2 : RuntimeGraphShape.InitOperatorOutputTensor.go prest orest with
      | none => rw [h2] at h; simp at h
      | some rest2 =>
        rw [h2] at h
        dsimp only at h
        cases h
        simp [initOpOutput_skel pop op op2 h1, initOutputGo_skel prest orest rest2 h2]

/-- `InitOperatorOutputTensor` preserves skeletons. -/
theorem initOutputPass_skel (pnnxOps : List PnnxOperator) (ops ops2 : List RuntimeOperator)
    (h : RuntimeGraphShape.InitOperatorOutputTensor pnnxOps ops = some ops2) :
    ops2.map skelOf = ops.map skelOf := by
  unfold RuntimeGraphShape.InitOperatorOutputTensor at h
  by_cases h1 : pnnxOps.isEmpty ∨ ops.isEmpty
  · rw [if_pos h1] at h; simp at h
  · rw [if_neg h1] at h
    by_cases h2 : pnnxOps.length ≠ ops.length
    · rw [if_pos h2] at h; simp at h
    · rw [if_neg h2] at h; exact initOutputGo_skel pnnxOps ops ops2 h

/-- Layer binding preserves skeletons. -/
theorem bindLayers_skel (factory : RuntimeOperator → Option LayerFn) :
    ∀ (ops ops2 : List RuntimeOperator),
    bindLayers factory ops = some ops2 → ops2.map skelOf = ops.map skelOf
  | [], ops2, h => by
    unfold bindLayers at h
    cases h
    rfl
  | op :: rest, ops2, h => by
    unfold bindLayers at h
    by_cases hs : op.type = "pnnx.Input" ∨ op.type = "pnnx.Output"
    · rw [if_pos hs] at h
      dsimp only at h
      cases h2 : bindLayers factory rest with
      | none => rw [h2] at h; simp at h
      | some rest2 =>
        rw [h2] at h
        dsimp only at h
        cases h
        simp [bindLayers_skel factory rest rest2 h2]
    · rw [if_neg hs] at h
      cases hf : factory op with
      | none => rw [hf] at h; simp at h
      | some l =>
        rw [hf] at h
        dsimp only at h
        cases h2 : bindLayers factory rest with
        | none => rw [h2] at h; simp at h
        | some rest2 =>
          rw [h2] at h
          dsimp only at h
          cases h
          simp [bindLayers_skel factory rest rest2 h2]
          rfl

/-- When the factory returns exactly the handlers already bound, layer
binding is the identity. -/
theorem bindLayers_id (factory : RuntimeOperator → Option LayerFn) :
    ∀ (ops : List RuntimeOperator),
    (∀ op ∈ ops, ¬(op.type = "pnnx.Input" ∨ op.type = "pnnx.Output") →
      factory op = some op.layer) →
    bindLayers factory ops = some ops
  | [], _ => rfl
  | op :: rest, h => by
    unfold bindLayers
    have hrest := bindLayers_id factory rest
      (fun o ho hno => h o (List.mem_cons_of_mem _ ho) hno)
    by_cases hs : op.type = "pnnx.Input" ∨ op.type = "pnnx.Output"
    · rw [if_pos hs]
      dsimp only
      rw [hrest]
    · rw [if_neg hs]
      rw [h op (List.mem_cons_self _ _) hs]
      dsimp only
      rw [hrest]

/-- **C7, amended.**  A second `Build` on a graph already in the `Complete`
state passes both lifecycle guards — it is not rejected with a state error —
and re-executes.  Whenever it returns, it never duplicates nodes or edges:
the node list keeps its length and every node its skeleton (name, type,
consumer edges, producer names).  But it is not always a no-op: re-running
output-shape resolution on a node whose declared 2-D output operand is
present with at least one buffer — exactly the state the first `Build`
leaves every declared 2-D output in — is fatal, because the per-buffer
validation loop (runtime_ir.cpp:101-109) compares the operand's two-element
declared shape against itself and reads its third element.  With the same
arguments the second `Build` is a no-op exactly in the stationary cases
(handlers re-bound identically and both shape passes fixed points, e.g.
every declared output 4-D or absent). -/
theorem claim_C7_amended (factory : RuntimeOperator → Option LayerFn) (g : RuntimeGraph)
    (a b : String) (g2 : RuntimeGraph)
    (hstate : g.graph_state = GraphState.Complete)
    (hbuild : RuntimeGraph.Build factory g a b = some g2) :
    (g.graph_state ≠ GraphState.NeedInit ∧
     ¬ GraphState.rank g.graph_state < GraphState.rank GraphState.NeedBuild) ∧
    (g2.operators.length = g.operators.length ∧
     ∀ v : Nat, (g2.operators[v]?).map skelOf = (g.operators[v]?).map skelOf) ∧
    (∀ (pop : PnnxOperator) (op : RuntimeOperator) (pnxOd : PnnxOperand)
       (outOd : RuntimeOperand) (c f : Int),
      pop.outputs = [pnxOd] → pnxOd.shape = [c, f] → ¬ c < 0 →
      op.output_operands = some outOd →
      outOd.type = RuntimeDataType.kTypeFloat32 →
      outOd.shapes = pnxOd.shape → outOd.datas.length = c.toNat →
      ¬ outOd.datas.isEmpty →
      RuntimeGraphShape.initOpOutput pop op = none) ∧
    (a = g.input_name → b = g.output_name →
      g.input_operators_maps = computeInputMaps g.operators →
      g.output_operators_maps = computeOutputMaps g.operators →
      (∀ op ∈ g.operators, ¬(op.type = "pnnx.Input" ∨ op.type = "pnnx.Output") →
        factory op = some op.layer) →
      RuntimeGraphShape.InitOperatorInputTensor g.operators = some g.operators →
      RuntimeGraphShape.InitOperatorOutputTensor g.pnnx_ops g.operators = some g.operators →
      g2 = g) := by
  have hguard : g.graph_state ≠ GraphState.NeedInit ∧
      ¬ GraphState.rank g.graph_state < GraphState.rank GraphState.NeedBuild := by
    rw [hstate]
    exact ⟨by decide, by decide⟩
  have hcrash : ∀ (pop : PnnxOperator) (op : RuntimeOperator) (pnxOd : PnnxOperand)
      (outOd : RuntimeOperand) (c f : Int),
      pop.outputs = [pnxOd] → pnxOd.shape = [c, f] → ¬ c < 0 →
      op.output_operands = some outOd →
      outOd.type = RuntimeDataType.kTypeFloat32 →
      outOd.shapes = pnxOd.shape → outOd.datas.length = c.toNat →
      ¬ outOd.datas.isEmpty →
      RuntimeGraphShape.initOpOutput pop op = none := by
    intro pop op pnxOd outOd c f houts hsh hc hout htype hshape hlen hne
    have h0 : pnxOd.shape[0]? = some c := by rw [hsh]; rfl
    have hr2 : pnxOd.shape.length = 2 := by rw [hsh]; rfl
    have hef : RuntimeGraphShape.evalCheck2D pnxOd.shape pnxOd.shape = none ∨
        RuntimeGraphShape.evalCheck2D pnxOd.shape pnxOd.shape = some false := by
      rw [hsh]
      by_cases hc1 : c = 1
      · subst hc1
        left
        simp [RuntimeGraphShape.evalCheck2D]
      · right
        simp [RuntimeGraphShape.evalCheck2D, hc1]
    unfold RuntimeGraphShape.initOpOutput
    rw [houts]
    simp only [List.length_cons, List.length_nil, List.head?_cons, h0, hout]
    rcases hef with hef | hef <;>
      simp [hc, hlen, htype, hshape, hne, hr2, hef]
  unfold RuntimeGraph.Build at hbuild
  rw [hstate] at hbuild
  rw [if_neg (by decide : ¬(GraphState.Complete = GraphState.NeedInit))] at hbuild
  rw [if_neg (by decide :
    ¬(GraphState.rank GraphState.Complete < GraphState.rank GraphState.NeedBuild))] at hbuild
  by_cases hemp : g.operators.isEmpty
  · rw [if_pos hemp] at hbuild; exact absurd hbuild (by simp)
  · rw [if_neg hemp] at hbuild
    cases hb1 : bindLayers factory g.operators with
    | none => rw [hb1] at hbuild; simp at hbuild
    | some ops1 =>
      rw [hb1] at hbuild
      dsimp only at hbuild
      cases hb2 : RuntimeGraphShape.InitOperatorInputTensor ops1 with
      | none => rw [hb2] at hbuild; simp at hbuild
      | some ops2 =>
        rw [hb2] at hbuild
        dsimp only at hbuild
        cases hb3 : RuntimeGraphShape.InitOperatorOutputTensor g.pnnx_ops ops2 with
        | none => rw [hb3] at hbuild; simp at hbuild
        | some ops3 =>
          rw [hb3] at hbuild
          dsimp only at hbuild
          cases hbuild
          have hmap : ops3.map skelOf = g.operators.map skelOf := by
            rw [initOutputPass_skel g.pnnx_ops ops2 ops3 hb3,
              initInputPass_skel ops1 ops2 hb2, bindLayers_skel factory g.operators ops1 hb1]
          refine ⟨hguard, ⟨?_, ?_⟩, hcrash, ?_⟩
          · have := congrArg List.length hmap
            simpa using this
          · intro v
            have h1 : (ops3.map skelOf)[v]? = (g.operators.map skelOf)[v]? := by rw [hmap]
            simpa [List.getElem?_map] using h1
          · intro ha hb hmin hmout hfact hstat1 hstat2
            subst ha hb
            have e1 : ops1 = g.operators := by
              have := bindLayers_id factory g.operators hfact
              rw [hb1] at this
              exact Option.some_inj.mp this
            subst e1
            have e2 : ops2 = g.operators := by
              rw [hstat1] at hb2
              exact (Option.some_inj.mp hb2).symm
            subst e2
            have e3 : ops3 = g.operators := by
              rw [hstat2] at hb3
              exact (Option.some_inj.mp hb3).symm
            subst e3
            rw [← hmin, ← hmout, ← hstate]

/-- **C7, counterexample.**  `gBuilt2` is exactly what the first `Build`
makes of the not-yet-built 2-D chain `gChainPre`: a `Complete` graph whose
nodes hold present 2-D output operands with their allocated buffers.  A
second `Build` on it falls outside the claim's allowed range: the lifecycle
guards pass (`Complete` is neither `NeedInit` nor below `NeedBuild`, so
there is no state-error rejection), yet the call is not a no-op either — it
aborts in the re-run output-shape pass, whose per-buffer loop compares the
two-element declared shape against itself and reads its third element. -/
theorem claim_C7_counterexample :
    RuntimeGraph.Build factoryB gChainPre "I" "O" = some gBuilt2 ∧
    gBuilt2.graph_state = GraphState.Complete ∧
    RuntimeGraph.Build factoryB gBuilt2 "I" "O" = none ∧
    ¬ specSecondBuildRange factoryB gBuilt2 "I" "O" := by
  refine ⟨rfl, rfl, rfl, ?_⟩
  intro h
  rcases h with (h | h) | h
  · have hc : gBuilt2.graph_state = GraphState.Complete := rfl
    rw [hc] at h
    cases h
  · have hc : gBuilt2.graph_state = GraphState.Complete := rfl
    rw [hc] at h
    exact absurd h (by decide)
  · have hn : RuntimeGraph.Build factoryB gBuilt2 "I" "O" = none := rfl
    rw [hn] at h
    cases h

/-- Witness for `claim_C7_amended`: re-building the already-`Complete` graph
`gBuilt` — whose middle node holds a present 4-D output operand with one
buffer, so both shape passes genuinely re-run through their present-operand
branches and are stationary — passes the lifecycle guards, duplicates
nothing, and returns the graph unchanged. -/
theorem claim_C7_witness :
    (gBuilt.graph_state ≠ GraphState.NeedInit ∧
     ¬ GraphState.rank gBuilt.graph_state < GraphState.rank GraphState.NeedBuild) ∧
    (gBuilt.operators.length = gBuilt.operators.length ∧
     ∀ v : Nat, (gBuilt.operators[v]?).map skelOf = (gBuilt.operators[v]?).map skelOf) ∧
    (gBuilt = gBuilt) := by
  have h := claim_C7_amended factoryB gBuilt "I" "O" gBuilt rfl (by rfl)
  refine ⟨h.1, h.2.1, ?_⟩
  exact h.2.2.2 rfl rfl (by rfl) (by rfl)
    (by
      intro op hop hno
      simp [gBuilt] at hop
      rcases hop with h1 | h1 | h1
      · subst h1
        exact absurd (Or.inl rfl) hno
      · subst h1
        rfl
      · subst h1
        exact absurd (Or.inr rfl) hno)
    (by rfl) (by rfl)

/-! ## Theorems: trace observables -/

@[simp] theorem firedNodes_append (t1 t2 : List Event) :
    firedNodes (t1 ++ t2) = firedNodes t1 ++ firedNodes t2 :=
  List.filterMap_append t1 t2 _

@[simp] theorem enqNodes_append (t1 t2 : List Event) :
    enqNodes (t1 ++ t2) = enqNodes t1 ++ enqNodes t2 :=
  List.filterMap_append t1 t2 _

@[simp] theorem retrNodes_append (t1 t2 : List Event) :
    retrNodes (t1 ++ t2) = retrNodes t1 ++ retrNodes t2 :=
  List.filterMap_append t1 t2 _

@[simp] theorem prodsTo_append (t1 t2 : List Event) (v : Nat) :
    prodsTo (t1 ++ t2) v = prodsTo t1 v ++ prodsTo t2 v :=
  List.filterMap_append t1 t2 _

theorem inputEvents_append (t1 t2 : List Event) :
    inputEvents (t1 ++ t2) = inputEvents t1 + inputEvents t2 := by
  unfold inputEvents
  rw [List.filterMap_append, List.length_append]

@[simp] theorem firedNodes_nil : firedNodes [] = [] := rfl
@[simp] theorem enqNodes_nil : enqNodes [] = [] := rfl
@[simp] theorem retrNodes_nil : retrNodes [] = [] := rfl
@[simp] theorem inputEvents_nil : inputEvents [] = 0 := rfl
@[simp] theorem prodsTo_nil (v : Nat) : prodsTo [] v = [] := rfl

@[simp] theorem firedNodes_cons_delivered (u v b a : Nat) (q : Bool) (t : List Event) :
    firedNodes (Event.delivered u v b a q :: t) = firedNodes t := rfl
@[simp] theorem firedNodes_cons_enqueued (v m : Nat) (t : List Event) :
    firedNodes (Event.enqueued v m :: t) = firedNodes t := rfl
@[simp] theorem firedNodes_cons_fired (v m k : Nat) (t : List Event) :
    firedNodes (Event.fired v m k :: t) = v :: firedNodes t := rfl
@[simp] theorem firedNodes_cons_input (t : List Event) :
    firedNodes (Event.inputProcessed :: t) = firedNodes t := rfl
@[simp] theorem firedNodes_cons_retried (v : Nat) (t : List Event) :
    firedNodes (Event.retried v :: t) = firedNodes t := rfl

@[simp] theorem enqNodes_cons_delivered (u v b a : Nat) (q : Bool) (t : List Event) :
    enqNodes (Event.delivered u v b a q :: t) = enqNodes t := rfl
@[simp] theorem enqNodes_cons_enqueued (v m : Nat) (t : List Event) :
    enqNodes (Event.enqueued v m :: t) = v :: enqNodes t := rfl
@[simp] theorem enqNodes_cons_fired (v m k : Nat) (t : List Event) :
    enqNodes (Event.fired v m k :: t) = enqNodes t := rfl
@[simp] theorem enqNodes_cons_input (t : List Event) :
    enqNodes (Event.inputProcessed :: t) = enqNodes t := rfl
@[simp] theorem enqNodes_cons_retried (v : Nat) (t : List Event) :
    enqNodes (Event.retried v :: t) = enqNodes t := rfl

@[simp] theorem retrNodes_cons_delivered (u v b a : Nat) (q : Bool) (t : List Event) :
    retrNodes (Event.delivered u v b a q :: t) = retrNodes t := rfl
@[simp] theorem retrNodes_cons_enqueued (v m : Nat) (t : List Event) :
    retrNodes (Event.enqueued v m :: t) = retrNodes t := rfl
@[simp] theorem retrNodes_cons_fired (v m k : Nat) (t : List Event) :
    retrNodes (Event.fired v m k :: t) = retrNodes t := rfl
@[simp] theorem retrNodes_cons_input (t : List Event) :
    retrNodes (Event.inputProcessed :: t) = retrNodes t := rfl
@[simp] theorem retrNodes_cons_retried (v : Nat) (t : List Event) :
    retrNodes (Event.retried v :: t) = v :: retrNodes t := rfl

@[simp] theorem inputEvents_cons_delivered (u v b a : Nat) (q : Bool) (t : List Event) :
    inputEvents (Event.delivered u v b a q :: t) = inputEvents t := rfl
@[simp] theorem inputEvents_cons_enqueued (v m : Nat) (t : List Event) :
    inputEvents (Event.enqueued v m :: t) = inputEvents t := rfl
@[simp] theorem inputEvents_cons_fired (v m k : Nat) (t : List Event) :
    inputEvents (Event.fired v m k :: t) = inputEvents t := rfl
@[simp] theorem inputEvents_cons_input (t : List Event) :
    inputEvents (Event.inputProcessed :: t) = inputEvents t + 1 := by
  unfold inputEvents
  simp [List.filterMap_cons]
@[simp] theorem inputEvents_cons_retried (v : Nat) (t : List Event) :
    inputEvents (Event.retried v :: t) = inputEvents t := rfl

theorem prodsTo_cons_delivered (u w b a : Nat) (q : Bool) (t : List Event) (v : Nat) :
    prodsTo (Event.delivered u w b a q :: t) v =
      (if w = v then [u] else []) ++ prodsTo t v := by
  by_cases h : w = v <;> simp [prodsTo, List.filterMap_cons, h]

@[simp] theorem prodsTo_cons_enqueued (w m : Nat) (t : List Event) (v : Nat) :
    prodsTo (Event.enqueued w m :: t) v = prodsTo t v := rfl
@[simp] theorem prodsTo_cons_fired (w m k : Nat) (t : List Event) (v : Nat) :
    prodsTo (Event.fired w m k :: t) v = prodsTo t v := rfl
@[simp] theorem prodsTo_cons_input (t : List Event) (v : Nat) :
    prodsTo (Event.inputProcessed :: t) v = prodsTo t v := rfl
@[simp] theorem prodsTo_cons_retried (w : Nat) (t : List Event) (v : Nat) :
    prodsTo (Event.retried w :: t) v = prodsTo t v := rfl

theorem mem_retrNodes_of_mem {t : List Event} {v : Nat} (h : Event.retried v ∈ t) :
    v ∈ retrNodes t := by
  unfold retrNodes
  exact List.mem_filterMap.mpr ⟨_, h, rfl⟩

theorem mem_enqNodes_of_mem {t : List Event} {v m : Nat} (h : Event.enqueued v m ∈ t) :
    v ∈ enqNodes t := by
  unfold enqNodes
  exact List.mem_filterMap.mpr ⟨_, h, rfl⟩

/-! ## Theorems: node-store lookups -/

theorem opAt_of_lt {ops : List RuntimeOperator} {v : Nat} (h : v < ops.length) :
    ops[v]? = some (opAt ops v) := by
  unfold opAt
  rw [List.getElem?_eq_getElem h]
  rfl

theorem opAt_set_self {ops : List RuntimeOperator} {v : Nat} (op : RuntimeOperator)
    (h : v < ops.length) : opAt (ops.set v op) v = op := by
  unfold opAt
  rw [List.getElem?_set_self h]
  rfl

theorem opAt_set_ne {ops : List RuntimeOperator} {v w : Nat} (op : RuntimeOperator)
    (h : v ≠ w) : opAt (ops.set v op) w = opAt ops w := by
  unfold opAt
  rw [List.getElem?_set_ne h]

theorem name_eq_of_skel {a b : RuntimeOperator} (h : skelOf a = skelOf b) :
    a.name = b.name := by
  unfold skelOf at h
  simpa using congrArg (fun p => p.1) h

theorem type_eq_of_skel {a b : RuntimeOperator} (h : skelOf a = skelOf b) :
    a.type = b.type := by
  unfold skelOf at h
  simpa using congrArg (fun p => p.2.1) h

theorem consumers_eq_of_skel {a b : RuntimeOperator} (h : skelOf a = skelOf b) :
    a.output_operators = b.output_operators := by
  unfold skelOf at h
  simpa using congrArg (fun p => p.2.2.1) h

theorem seqNames_eq_of_skel {a b : RuntimeOperator} (h : skelOf a = skelOf b) :
    a.input_operands_seq.map (fun od => od.name) =
      b.input_operands_seq.map (fun od => od.name) := by
  unfold skelOf at h
  simpa using congrArg (fun p => p.2.2.2) h

theorem inputNamesD_eq_of_skel {a b : RuntimeOperator} (h : skelOf a = skelOf b) :
    a.inputNamesD = b.inputNamesD := by
  unfold RuntimeOperator.inputNamesD
  rw [seqNames_eq_of_skel h]

theorem inputNamesD_setInputOperandDatas (op : RuntimeOperator) (k : String)
    (ds : List Tensor) :
    (op.setInputOperandDatas k ds).inputNamesD = op.inputNamesD :=
  inputNamesD_eq_of_skel (skelOf_setInputOperandDatas op k ds)

theorem Inv.skelAt {ops0 : List RuntimeOperator} {inI : Nat} {st : ExecState}
    (hInv : Inv ops0 inI st) {v : Nat} (h : v < ops0.length) :
    skelOf (opAt st.ops v) = skelOf (opAt ops0 v) := by
  have h2 : v < st.ops.length := by rw [hInv.len]; exact h
  have hs := hInv.skel v
  rw [opAt_of_lt h2, opAt_of_lt h] at hs
  simpa using hs

theorem Inv.inputNamesD_eq {ops0 : List RuntimeOperator} {inI : Nat} {st : ExecState}
    (hInv : Inv ops0 inI st) {v : Nat} (h : v < ops0.length) :
    (opAt st.ops v).inputNamesD = (opAt ops0 v).inputNamesD :=
  inputNamesD_eq_of_skel (hInv.skelAt h)

theorem Inv.nameAt_eq {ops0 : List RuntimeOperator} {inI : Nat} {st : ExecState}
    (hInv : Inv ops0 inI st) {v : Nat} (h : v < ops0.length) :
    (opAt st.ops v).name = (opAt ops0 v).name :=
  name_eq_of_skel (hInv.skelAt h)

theorem Inv.consAt_eq {ops0 : List RuntimeOperator} {inI : Nat} {st : ExecState}
    (hInv : Inv ops0 inI st) {v : Nat} (h : v < ops0.length) :
    (opAt st.ops v).output_operators = (opAt ops0 v).output_operators :=
  consumers_eq_of_skel (hInv.skelAt h)

theorem nameAt_inj {ops0 : List RuntimeOperator}
    (hnames : (ops0.map (fun op => op.name)).Nodup) {x y : Nat}
    (hx : x < ops0.length) (hy : y < ops0.length)
    (h : (opAt ops0 x).name = (opAt ops0 y).name) : x = y := by
  have hx2 : x < (ops0.map (fun op => op.name)).length := by simpa using hx
  have hy2 : y < (ops0.map (fun op => op.name)).length := by simpa using hy
  have e1 : opAt ops0 x = ops0[x] := by
    unfold opAt
    rw [List.getElem?_eq_getElem hx]
    rfl
  have e2 : opAt ops0 y = ops0[y] := by
    unfold opAt
    rw [List.getElem?_eq_getElem hy]
    rfl
  refine (@List.Nodup.getElem_inj_iff _ _ hnames x hx2 y hy2).mp ?_
  rw [List.getElem_map, List.getElem_map]
  rw [e1, e2] at h
  exact h

/-- The counting core: a Nodup set of producers, each in range and each
contributing a name of `v`'s input map, together with one fresh producer
whose name is also in the map, is strictly smaller than the map. -/
theorem prods_bound {ops0 : List RuntimeOperator}
    (hnames : (ops0.map (fun op => op.name)).Nodup)
    {v : Nat} {P : List Nat} (hP : P.Nodup)
    (hlt : ∀ x ∈ P, x < ops0.length)
    (hmem : ∀ x ∈ P, (opAt ops0 x).name ∈ (opAt ops0 v).inputNamesD)
    {u : Nat} (hu : u < ops0.length) (hufresh : u ∉ P)
    (huname : (opAt ops0 u).name ∈ (opAt ops0 v).inputNamesD) :
    P.length < (opAt ops0 v).inputNamesD.length := by
  have hnd : (u :: P).Nodup := List.nodup_cons.mpr ⟨hufresh, hP⟩
  have hmapnd : ((u :: P).map (fun x => (opAt ops0 x).name)).Nodup := by
    refine List.Nodup.map_on ?_ hnd
    intro x hx y hy hxy
    refine nameAt_inj hnames ?_ ?_ hxy
    · rcases List.mem_cons.mp hx with h | h
      · subst h; exact hu
      · exact hlt x h
    · rcases List.mem_cons.mp hy with h | h
      · subst h; exact hu
      · exact hlt y h
  have hsub : ((u :: P).map (fun x => (opAt ops0 x).name)) ⊆ (opAt ops0 v).inputNamesD := by
    intro a ha
    simp only [List.mem_map, List.mem_cons] at ha
    obtain ⟨x, hx | hx, rfl⟩ := ha
    · subst hx; exact huname
    · exact hmem x hx
  have hle := (List.subperm_of_subset hmapnd hsub).length_le
  simp only [List.length_map, List.length_cons] at hle
  omega

theorem findOperandByName_name_mem : ∀ (l : List RuntimeOperand) (k : String)
    (od : RuntimeOperand), findOperandByName l k = some od →
    k ∈ l.map (fun x => x.name)
  | [], k, od, h => by simp [findOperandByName] at h
  | x :: rest, k, od, h => by
    unfold findOperandByName at h
    by_cases he : x.name = k
    · simp [he]
    · rw [if_neg he] at h
      simp only [List.map_cons, List.mem_cons]
      exact Or.inr (findOperandByName_name_mem rest k od h)

theorem Inv.toGoodTrace {ops0 : List RuntimeOperator} {inI : Nat} {st : ExecState}
    (hInv : Inv ops0 inI st) : GoodTrace ops0 st.trace :=
  ⟨hInv.evOk, hInv.firedNodup, hInv.enqNodup, hInv.retrNone, hInv.reachEnq⟩

theorem GoodTrace_nil (ops0 : List RuntimeOperator) : GoodTrace ops0 [] := by
  refine ⟨?_, ?_, ?_, ?_, ?_⟩
  · intro e he; simp at he
  · simp
  · simp
  · simp
  · intro v hv h1 h2
    simp at h1
    omega

/-! ## Theorems: the delivery step preserves the invariant -/

/-- One completed delivery `u → v` (buffer copy plus net counter increment,
with enqueue exactly on the readiness transition) preserves the loop
invariant. -/
theorem Inv_deliver {ops0 : List RuntimeOperator} {inI u v : Nat} {st : ExecState}
    (hInv : Inv ops0 inI st)
    (nd2 : RuntimeOperator) (b : Bool)
    (hskel : skelOf nd2 = skelOf (opAt st.ops v))
    (hmeet : nd2.meet_num = (opAt st.ops v).meet_num + 1)
    (hu : u < ops0.length) (hv : v < ops0.length)
    (hvq : v ∉ st.queue) (hvinI : v ≠ inI)
    (hfresh : u ∉ prodsTo st.trace v)
    (hnameD : (opAt ops0 u).name ∈ (opAt ops0 v).inputNamesD)
    (hstrict : (prodsTo st.trace v).length < (opAt ops0 v).inputNamesD.length)
    (hustat : u ∈ firedNodes st.trace ∨ (u = inI ∧ inputEvents st.trace = 1))
    (hb : b = true ↔ nd2.meet_num = (opAt ops0 v).inputNamesD.length) :
    Inv ops0 inI
      { ops := st.ops.set v nd2,
        queue := st.queue ++ (if b then [v] else []),
        trace := st.trace ++
          [Event.delivered u v (opAt st.ops v).meet_num nd2.meet_num false] ++
          (if b then [Event.enqueued v nd2.meet_num] else []) } := by
  have hvlen : v < st.ops.length := by rw [hInv.len]; exact hv
  have hmv : (opAt st.ops v).meet_num = (prodsTo st.trace v).length := hInv.meetAcc v hv
  have hsz : (opAt st.ops v).inputNamesD = (opAt ops0 v).inputNamesD :=
    hInv.inputNamesD_eq hv
  have hnd2names : nd2.inputNamesD = (opAt ops0 v).inputNamesD := by
    rw [inputNamesD_eq_of_skel hskel, hsz]
  have hvfired : v ∉ firedNodes st.trace := by
    intro hmem
    have := hInv.firedMax v hmem
    rw [hsz] at this
    omega
  have hvenq : v ∉ enqNodes st.trace := by
    intro hmem
    have := hInv.enqMax v hmem
    rw [hsz] at this
    omega
  have hTfired : firedNodes
      (st.trace ++ [Event.delivered u v (opAt st.ops v).meet_num nd2.meet_num false] ++
        (if b then [Event.enqueued v nd2.meet_num] else [])) = firedNodes st.trace := by
    cases b <;> simp
  have hTretr : retrNodes
      (st.trace ++ [Event.delivered u v (opAt st.ops v).meet_num nd2.meet_num false] ++
        (if b then [Event.enqueued v nd2.meet_num] else [])) = retrNodes st.trace := by
    cases b <;> simp
  have hTinput : inputEvents
      (st.trace ++ [Event.delivered u v (opAt st.ops v).meet_num nd2.meet_num false] ++
        (if b then [Event.enqueued v nd2.meet_num] else [])) = inputEvents st.trace := by
    cases b <;> simp [inputEvents_append]
  have hTenq : enqNodes
      (st.trace ++ [Event.delivered u v (opAt st.ops v).meet_num nd2.meet_num false] ++
        (if b then [Event.enqueued v nd2.meet_num] else [])) =
      enqNodes st.trace ++ (if b then [v] else []) := by
    cases b <;> simp
  have hTprods : ∀ w : Nat, prodsTo
      (st.trace ++ [Event.delivered u v (opAt st.ops v).meet_num nd2.meet_num false] ++
        (if b then [Event.enqueued v nd2.meet_num] else [])) w =
      prodsTo st.trace w ++ (if v = w then [u] else []) := by
    intro w
    cases b <;> simp [prodsTo_cons_delivered]
  refine ⟨?_, ?_, ?_, ?_, ?_, ?_, ?_, ?_, ?_, ?_, ?_, ?_, ?_, ?_, ?_, ?_, ?_, ?_, ?_, ?_,
    ?_, ?_, ?_⟩
  · -- len
    simpa using hInv.len
  · -- skel
    intro w
    by_cases hw : w = v
    · subst hw
      rw [List.getElem?_set_self hvlen]
      have := hInv.skel w
      rw [opAt_of_lt hvlen] at this
      simpa [hskel] using this
    · rw [List.getElem?_set_ne (fun he => hw he.symm)]
      exact hInv.skel w
  · -- qNodup
    cases b with
    | false => simpa using hInv.qNodup
    | true =>
      simp only [if_pos rfl]
      rw [List.nodup_append]
      exact ⟨hInv.qNodup, List.nodup_singleton v,
        fun a ha hb2 => hvq (by simpa [List.mem_singleton.mp hb2] using ha)⟩
  · -- qLt
    intro q hq
    rcases List.mem_append.mp hq with h | h
    · exact hInv.qLt q h
    · cases b with
      | false => simp at h
      | true => simp at h; subst h; exact hv
  · -- qNotInput
    intro hmem
    rcases List.mem_append.mp hmem with h | h
    · exact hInv.qNotInput h
    · cases b with
      | false => simp at h
      | true => simp at h; exact hvinI h.symm
  · -- qReady
    intro q hq
    rcases List.mem_append.mp hq with h | h
    · have hqv : q ≠ v := fun he => hvq (he ▸ h)
      rw [opAt_set_ne nd2 (fun he => hqv he.symm)]
      exact hInv.qReady q h
    · cases b with
      | false => simp at h
      | true =>
        simp at h
        subst h
        rw [opAt_set_self nd2 hvlen, hnd2names]
        exact hb.mp rfl
  · -- qUnfired
    intro q hq
    rw [hTfired]
    rcases List.mem_append.mp hq with h | h
    · exact hInv.qUnfired q h
    · cases b with
      | false => simp at h
      | true => simp at h; subst h; exact hvfired
  · -- meetAcc
    intro w hw
    rw [hTprods w]
    by_cases hwv : w = v
    · subst hwv
      rw [opAt_set_self nd2 hvlen]
      simp [hmeet, hmv]
    · rw [opAt_set_ne nd2 (fun he => hwv he.symm), if_neg (fun he => hwv he.symm)]
      simpa using hInv.meetAcc w hw
  · -- prodsNodup
    intro w
    rw [hTprods w]
    by_cases hwv : v = w
    · subst hwv
      rw [if_pos rfl, List.nodup_append]
      exact ⟨hInv.prodsNodup v, List.nodup_singleton u,
        fun a ha hb2 => hfresh (by simpa [List.mem_singleton.mp hb2] using ha)⟩
    · rw [if_neg hwv]
      simpa using hInv.prodsNodup w
  · -- prodsLt
    intro w x hx
    rw [hTprods w] at hx
    rcases List.mem_append.mp hx with h | h
    · exact hInv.prodsLt w x h
    · by_cases hwv : v = w
      · rw [if_pos hwv] at h
        simp at h
        subst h
        exact hu
      · rw [if_neg hwv] at h; simp at h
  · -- prodsName
    intro w x hx
    rw [hTprods w] at hx
    rcases List.mem_append.mp hx with h | h
    · exact hInv.prodsName w x h
    · by_cases hwv : v = w
      · rw [if_pos hwv] at h
        simp at h
        subst h
        rw [← hwv]
        exact hnameD
      · rw [if_neg hwv] at h; simp at h
  · -- prodsProcessed
    intro w x hx
    rw [hTfired, hTinput]
    rw [hTprods w] at hx
    rcases List.mem_append.mp hx with h | h
    · exact hInv.prodsProcessed w x h
    · by_cases hwv : v = w
      · rw [if_pos hwv] at h
        simp at h
        subst h
        exact hustat
      · rw [if_neg hwv] at h; simp at h
  · -- firedNodup
    rw [hTfired]; exact hInv.firedNodup
  · -- firedLt
    rw [hTfired]; exact hInv.firedLt
  · -- firedNotInput
    rw [hTfired]; exact hInv.firedNotInput
  · -- firedMax
    rw [hTfired]
    intro w hw
    have hwv : w ≠ v := fun he => hvfired (he ▸ hw)
    rw [opAt_set_ne nd2 (fun he => hwv he.symm)]
    exact hInv.firedMax w hw
  · -- enqNodup
    rw [hTenq]
    cases b with
    | false => simpa using hInv.enqNodup
    | true =>
      simp only [if_pos rfl]
      rw [List.nodup_append]
      exact ⟨hInv.enqNodup, List.nodup_singleton v,
        fun a ha hb2 => hvenq (by simpa [List.mem_singleton.mp hb2] using ha)⟩
  · -- enqLt
    rw [hTenq]
    intro w hw
    rcases List.mem_append.mp hw with h | h
    · exact hInv.enqLt w h
    · cases b with
      | false => simp at h
      | true => simp at h; subst h; exact hv
  · -- enqMax
    rw [hTenq]
    intro w hw
    rcases List.mem_append.mp hw with h | h
    · have hwv : w ≠ v := fun he => hvenq (he ▸ h)
      rw [opAt_set_ne nd2 (fun he => hwv he.symm)]
      exact hInv.enqMax w h
    · cases b with
      | false => simp at h
      | true =>
        simp at h
        subst h
        rw [opAt_set_self nd2 hvlen, hnd2names]
        exact hb.mp rfl
  · -- inputOnce
    rw [hTinput]; exact hInv.inputOnce
  · -- retrNone
    rw [hTretr]; exact hInv.retrNone
  · -- evOk
    intro e he
    rcases List.mem_append.mp he with he1 | he2
    · rcases List.mem_append.mp he1 with h | h
      · exact hInv.evOk e h
      · simp at h
        subst h
        show nd2.meet_num = (opAt st.ops v).meet_num + 1
        exact hmeet
    · cases b with
      | false => simp at he2
      | true =>
        simp at he2
        subst he2
        show ((ops0[v]?).map (fun op => op.inputNamesD.length)) = some nd2.meet_num
        rw [opAt_of_lt hv]
        simp [hb.mp rfl]
  · -- reachEnq
    intro w hw hlen hpos
    rw [hTenq]
    rw [hTprods w] at hlen
    by_cases hwv : v = w
    · subst hwv
      rw [if_pos rfl] at hlen
      simp only [List.length_append, List.length_singleton] at hlen
      have hb2 : b = true := by
        apply hb.mpr
        unfold sizeAt at hlen
        omega
      subst hb2
      simp
    · rw [if_neg hwv] at hlen
      simp only [List.append_nil] at hlen
      exact List.mem_append_left _ (hInv.reachEnq w hw hlen hpos)

theorem ite_bool_true {α : Sort _} {c : Bool} (h : c = true) (x y : α) :
    (if c = true then x else y) = x := by
  rw [h]
  simp

theorem ite_bool_false {α : Sort _} {c : Bool} (h : c = false) (x y : α) :
    (if c = true then x else y) = y := by
  rw [h]
  simp

/-- `probeOne` preserves the invariant; on success, only the delivered
consumer's producer list changes, and the fired/input observables are
untouched. -/
theorem probeOne_inv (ops0 : List RuntimeOperator) (inI u : Nat) (curName : String)
    (outDatas : List Tensor) (st : ExecState) (v : Nat)
    (hInv : Inv ops0 inI st)
    (hnames : (ops0.map (fun op => op.name)).Nodup)
    (hInEmpty : (opAt ops0 inI).input_operands_seq = [])
    (hu : u < ops0.length)
    (hname : curName = (opAt ops0 u).name)
    (hustat : u ∈ firedNodes st.trace ∨ (u = inI ∧ inputEvents st.trace = 1))
    (hv : v < ops0.length)
    (hfresh : u ∉ prodsTo st.trace v) :
    (∀ st2, RuntimeGraph.probeOne u curName outDatas st v = PRes.ok st2 →
      Inv ops0 inI st2 ∧
      (∀ w : Nat, w ≠ v → prodsTo st2.trace w = prodsTo st.trace w) ∧
      firedNodes st2.trace = firedNodes st.trace ∧
      inputEvents st2.trace = inputEvents st.trace) ∧
    (∀ st2, RuntimeGraph.probeOne u curName outDatas st v = PRes.fatal st2 →
      Inv ops0 inI st2) := by
  have hvlen : v < st.ops.length := by rw [hInv.len]; exact hv
  have hvget : st.ops[v]? = some (opAt st.ops v) := opAt_of_lt hvlen
  cases hfind : (opAt st.ops v).findInputOperand curName with
  | none =>
    have heq : RuntimeGraph.probeOne u curName outDatas st v = PRes.ok st := by
      unfold RuntimeGraph.probeOne
      rw [hvget]
      dsimp only
      rw [hfind]
    refine ⟨?_, ?_⟩
    · intro st2 h2
      rw [heq] at h2
      cases h2
      exact ⟨hInv, fun w _ => rfl, rfl, rfl⟩
    · intro st2 h2
      rw [heq] at h2
      simp at h2
  | some od =>
    have hmemD : curName ∈ (opAt st.ops v).inputNamesD :=
      List.mem_dedup.mpr (findOperandByName_name_mem _ _ _ hfind)
    have hnameD : (opAt ops0 u).name ∈ (opAt ops0 v).inputNamesD := by
      rw [hInv.inputNamesD_eq hv] at hmemD
      rw [← hname]
      exact hmemD
    have hstrict : (prodsTo st.trace v).length < (opAt ops0 v).inputNamesD.length :=
      prods_bound hnames (hInv.prodsNodup v) (fun x hx => hInv.prodsLt v x hx)
        (fun x hx => hInv.prodsName v x hx) hu hfresh hnameD
    have hmv : (opAt st.ops v).meet_num = (prodsTo st.trace v).length := hInv.meetAcc v hv
    have hsz : (opAt st.ops v).inputNamesD = (opAt ops0 v).inputNamesD :=
      hInv.inputNamesD_eq hv
    have hszlen : (opAt st.ops v).inputNamesD.length = (opAt ops0 v).inputNamesD.length := by
      rw [hsz]
    have hvq : v ∉ st.queue := by
      intro hin
      have := hInv.qReady v hin
      omega
    have hvinI : v ≠ inI := by
      intro he
      subst he
      have hnil : (opAt ops0 v).inputNamesD = [] := by
        unfold RuntimeOperator.inputNamesD
        rw [hInEmpty]
        rfl
      rw [hnil] at hnameD
      simp at hnameD
    cases hset : RuntimeGraph.SetOpInputData outDatas od.datas with
    | none =>
      have heq : RuntimeGraph.probeOne u curName outDatas st v = PRes.fatal st := by
        unfold RuntimeGraph.probeOne
        rw [hvget]
        dsimp only
        rw [hfind]
        dsimp only
        rw [hset]
      refine ⟨?_, ?_⟩
      · intro st2 h2
        rw [heq] at h2
        simp at h2
      · intro st2 h2
        rw [heq] at h2
        cases h2
        exact hInv
    | some newDatas =>
      have hnd1meet : ((opAt st.ops v).setInputOperandDatas curName newDatas).meet_num =
          (opAt st.ops v).meet_num := rfl
      have hnd1names : ((opAt st.ops v).setInputOperandDatas curName newDatas).inputNamesD =
          (opAt st.ops v).inputNamesD :=
        inputNamesD_setInputOperandDatas _ _ _
      have hnd1len :
          ((opAt st.ops v).setInputOperandDatas curName newDatas).inputNamesD.length =
          (opAt ops0 v).inputNamesD.length := by
        rw [hnd1names, hsz]
      have hchk : RuntimeGraph.CheckOperatorReady
          { (opAt st.ops v).setInputOperandDatas curName newDatas with
            meet_num := ((opAt st.ops v).setInputOperandDatas curName newDatas).meet_num + 1 } =
          some (((opAt st.ops v).setInputOperandDatas curName newDatas).meet_num + 1 ==
            ((opAt st.ops v).setInputOperandDatas curName newDatas).inputNamesD.length) := by
        unfold RuntimeGraph.CheckOperatorReady
        rw [if_pos]
        · rfl
        · show ((opAt st.ops v).setInputOperandDatas curName newDatas).meet_num + 1 ≤
            ((opAt st.ops v).setInputOperandDatas curName newDatas).inputNamesD.length
          rw [hnd1meet, hnd1len]
          omega
      by_cases hrdy : ((opAt st.ops v).setInputOperandDatas curName newDatas).meet_num + 1 =
          ((opAt st.ops v).setInputOperandDatas curName newDatas).inputNamesD.length
      · have hbeq : (((opAt st.ops v).setInputOperandDatas curName newDatas).meet_num + 1 ==
            ((opAt st.ops v).setInputOperandDatas curName newDatas).inputNamesD.length) =
            true := by
          simp [hrdy]
        have heq : RuntimeGraph.probeOne u curName outDatas st v =
            PRes.ok
              { ops := st.ops.set v
                  { (opAt st.ops v).setInputOperandDatas curName newDatas with
                    meet_num := ((opAt st.ops v).setInputOperandDatas curName
                      newDatas).meet_num + 1 - 1 + 1 },
                queue := st.queue ++ [v],
                trace := st.trace ++
                  [Event.delivered u v
                    ((opAt st.ops v).setInputOperandDatas curName newDatas).meet_num
                    (((opAt st.ops v).setInputOperandDatas curName
                      newDatas).meet_num + 1 - 1 + 1) false] ++
                  [Event.enqueued v
                    (((opAt st.ops v).setInputOperandDatas curName newDatas).meet_num + 1)] } := by
          unfold RuntimeGraph.probeOne
          rw [hvget]
          dsimp only
          rw [hfind]
          dsimp only
          rw [hset]
          dsimp only
          rw [if_neg hvq]
          rw [hchk]
          dsimp only
          rw [ite_bool_true hbeq, ite_bool_true hbeq]
        refine ⟨?_, ?_⟩
        · intro st2 h2
          rw [heq] at h2
          cases h2
          refine ⟨?_, ?_, ?_, ?_⟩
          · refine Inv_deliver hInv _ true ?_ ?_ hu hv hvq hvinI hfresh hnameD hstrict
              hustat ?_
            · show skelOf { (opAt st.ops v).setInputOperandDatas curName newDatas with
                meet_num := _ } = skelOf (opAt st.ops v)
              exact skelOf_setInputOperandDatas (opAt st.ops v) curName newDatas
            · show ((opAt st.ops v).setInputOperandDatas curName newDatas).meet_num + 1 - 1 + 1 =
                (opAt st.ops v).meet_num + 1
              rw [hnd1meet]
              omega
            · constructor
              · intro _
                show ((opAt st.ops v).setInputOperandDatas curName
                  newDatas).meet_num + 1 - 1 + 1 = (opAt ops0 v).inputNamesD.length
                rw [← hnd1len]
                omega
              · intro _
                rfl
          · intro w hw
            have hvw : ¬ v = w := fun h => hw h.symm
            simp [prodsTo_cons_delivered, hvw]
          · simp
          · simp [inputEvents_append]
        · intro st2 h2
          rw [heq] at h2
          simp at h2
      · have hbeq : (((opAt st.ops v).setInputOperandDatas curName newDatas).meet_num + 1 ==
            ((opAt st.ops v).setInputOperandDatas curName newDatas).inputNamesD.length) =
            false := by
          simp [hrdy]
        have heq : RuntimeGraph.probeOne u curName outDatas st v =
            PRes.ok
              { ops := st.ops.set v
                  { (opAt st.ops v).setInputOperandDatas curName newDatas with
                    meet_num := ((opAt st.ops v).setInputOperandDatas curName
                      newDatas).meet_num + 1 - 1 + 1 },
                queue := st.queue,
                trace := st.trace ++
                  [Event.delivered u v
                    ((opAt st.ops v).setInputOperandDatas curName newDatas).meet_num
                    (((opAt st.ops v).setInputOperandDatas curName
                      newDatas).meet_num + 1 - 1 + 1) false] ++
                  [] } := by
          unfold RuntimeGraph.probeOne
          rw [hvget]
          dsimp only
          rw [hfind]
          dsimp only
          rw [hset]
          dsimp only
          rw [if_neg hvq]
          rw [hchk]
          dsimp only
          rw [ite_bool_false hbeq, ite_bool_false hbeq]
        refine ⟨?_, ?_⟩
        · intro st2 h2
          rw [heq] at h2
          cases h2
          refine ⟨?_, ?_, ?_, ?_⟩
          · have hdel := Inv_deliver hInv
              { (opAt st.ops v).setInputOperandDatas curName newDatas with
                meet_num := ((opAt st.ops v).setInputOperandDatas curName
                  newDatas).meet_num + 1 - 1 + 1 }
              false
              (skelOf_setInputOperandDatas (opAt st.ops v) curName newDatas)
              (by
                show ((opAt st.ops v).setInputOperandDatas curName
                    newDatas).meet_num + 1 - 1 + 1 = (opAt st.ops v).meet_num + 1
                rw [hnd1meet]
                omega)
              hu hv hvq hvinI hfresh hnameD hstrict hustat
              (by
                constructor
                · intro hfalse
                  simp at hfalse
                · intro hc
                  exfalso
                  apply hrdy
                  have hc2 : ((opAt st.ops v).setInputOperandDatas curName
                      newDatas).meet_num + 1 - 1 + 1 = (opAt ops0 v).inputNamesD.length := hc
                  rw [← hnd1len] at hc2
                  omega)
            simpa using hdel
          · intro w hw
            have hvw : ¬ v = w := fun h => hw h.symm
            simp [prodsTo_cons_delivered, hvw]
          · simp
          · simp [inputEvents_append]
        · intro st2 h2
          rw [heq] at h2
          simp at h2

/-! ## Theorems: the loop steps preserve the invariant -/

/-- Popping the queue front preserves the invariant. -/
theorem Inv_dequeue {ops0 : List RuntimeOperator} {inI : Nat} {st : ExecState}
    {cur : Nat} {rest : List Nat} (hInv : Inv ops0 inI st) (hq : st.queue = cur :: rest) :
    Inv ops0 inI { st with queue := rest } := by
  refine ⟨hInv.len, hInv.skel, ?_, ?_, ?_, ?_, ?_, hInv.meetAcc, hInv.prodsNodup,
    hInv.prodsLt, hInv.prodsName, hInv.prodsProcessed, hInv.firedNodup, hInv.firedLt,
    hInv.firedNotInput, hInv.firedMax, hInv.enqNodup, hInv.enqLt, hInv.enqMax,
    hInv.inputOnce, hInv.retrNone, hInv.evOk, hInv.reachEnq⟩
  · have hnd := hInv.qNodup
    rw [hq] at hnd
    exact (List.nodup_cons.mp hnd).2
  · intro q hqm
    exact hInv.qLt q (by rw [hq]; exact List.mem_cons_of_mem _ hqm)
  · intro hmem
    exact hInv.qNotInput (by rw [hq]; exact List.mem_cons_of_mem _ hmem)
  · intro q hqm
    exact hInv.qReady q (by rw [hq]; exact List.mem_cons_of_mem _ hqm)
  · intro q hqm
    exact hInv.qUnfired q (by rw [hq]; exact List.mem_cons_of_mem _ hqm)

/-- Recording the firing of a ready, not-yet-fired, non-sentinel node that is
no longer in the queue preserves the invariant. -/
theorem Inv_fireTrace {ops0 : List RuntimeOperator} {inI cur : Nat} {st : ExecState}
    (hInv : Inv ops0 inI st)
    (hcur : cur < ops0.length)
    (hcurNI : cur ≠ inI)
    (hcq : cur ∉ st.queue)
    (hunfired : cur ∉ firedNodes st.trace)
    (hready : (opAt st.ops cur).meet_num = (opAt st.ops cur).inputNamesD.length) :
    Inv ops0 inI { st with trace := st.trace ++
      [Event.fired cur (opAt st.ops cur).meet_num (opAt st.ops cur).inputNamesD.length] } := by
  refine ⟨hInv.len, hInv.skel, hInv.qNodup, hInv.qLt, hInv.qNotInput, hInv.qReady,
    ?_, ?_, ?_, ?_, ?_, ?_, ?_, ?_, ?_, ?_, ?_, ?_, ?_, ?_, ?_, ?_, ?_⟩
  · -- qUnfired
    intro q hqm
    simp only [firedNodes_append, firedNodes_cons_fired, firedNodes_nil]
    intro hm
    rcases List.mem_append.mp hm with h | h
    · exact hInv.qUnfired q hqm h
    · simp at h
      subst h
      exact hcq hqm
  · -- meetAcc
    intro v hv
    simpa using hInv.meetAcc v hv
  · -- prodsNodup
    intro v
    simpa using hInv.prodsNodup v
  · -- prodsLt
    intro v x hx
    simp only [prodsTo_append, prodsTo_cons_fired, prodsTo_nil, List.append_nil] at hx
    exact hInv.prodsLt v x hx
  · -- prodsName
    intro v x hx
    simp only [prodsTo_append, prodsTo_cons_fired, prodsTo_nil, List.append_nil] at hx
    exact hInv.prodsName v x hx
  · -- prodsProcessed
    intro v x hx
    simp only [prodsTo_append, prodsTo_cons_fired, prodsTo_nil, List.append_nil] at hx
    simp only [firedNodes_append, firedNodes_cons_fired, firedNodes_nil,
      inputEvents_append, inputEvents_cons_fired, inputEvents_nil]
    rcases hInv.prodsProcessed v x hx with h | h
    · exact Or.inl (List.mem_append_left _ h)
    · exact Or.inr ⟨h.1, by omega⟩
  · -- firedNodup
    simp only [firedNodes_append, firedNodes_cons_fired, firedNodes_nil]
    rw [List.nodup_append]
    exact ⟨hInv.firedNodup, List.nodup_singleton cur,
      fun a ha hb => hunfired (by simpa [List.mem_singleton.mp hb] using ha)⟩
  · -- firedLt
    intro v hv
    simp only [firedNodes_append, firedNodes_cons_fired, firedNodes_nil] at hv
    rcases List.mem_append.mp hv with h | h
    · exact hInv.firedLt v h
    · simp at h
      subst h
      exact hcur
  · -- firedNotInput
    simp only [firedNodes_append, firedNodes_cons_fired, firedNodes_nil]
    intro hm
    rcases List.mem_append.mp hm with h | h
    · exact hInv.firedNotInput h
    · simp at h
      exact hcurNI h.symm
  · -- firedMax
    intro v hv
    simp only [firedNodes_append, firedNodes_cons_fired, firedNodes_nil] at hv
    rcases List.mem_append.mp hv with h | h
    · exact hInv.firedMax v h
    · simp at h
      subst h
      exact hready
  · -- enqNodup
    simpa using hInv.enqNodup
  · -- enqLt
    intro v hv
    simp only [enqNodes_append, enqNodes_cons_fired, enqNodes_nil,
      List.append_nil] at hv
    exact hInv.enqLt v hv
  · -- enqMax
    intro v hv
    simp only [enqNodes_append, enqNodes_cons_fired, enqNodes_nil,
      List.append_nil] at hv
    exact hInv.enqMax v hv
  · -- inputOnce
    simp only [inputEvents_append, inputEvents_cons_fired, inputEvents_nil]
    have := hInv.inputOnce
    omega
  · -- retrNone
    simpa using hInv.retrNone
  · -- evOk
    intro e he
    rcases List.mem_append.mp he with h | h
    · exact hInv.evOk e h
    · simp at h
      subst h
      constructor
      · exact hready
      · have hlen2 : cur < st.ops.length := by rw [hInv.len]; exact hcur
        rw [opAt_of_lt hcur]
        simp [hInv.inputNamesD_eq hcur]
  · -- reachEnq
    intro v hv h1 h2
    simp only [prodsTo_append, prodsTo_cons_fired, prodsTo_nil, List.append_nil] at h1
    simp only [enqNodes_append, enqNodes_cons_fired, enqNodes_nil, List.append_nil]
    exact hInv.reachEnq v hv h1 h2

/-- Replacing a node's record by one with the same skeleton and counter
(installing freshly written output buffers) preserves the invariant. -/
theorem Inv_setOps {ops0 : List RuntimeOperator} {inI cur : Nat} {st : ExecState}
    (hInv : Inv ops0 inI st)
    (hcur : cur < ops0.length)
    (op2 : RuntimeOperator)
    (hskel2 : skelOf op2 = skelOf (opAt st.ops cur))
    (hmeet2 : op2.meet_num = (opAt st.ops cur).meet_num) :
    Inv ops0 inI { st with ops := st.ops.set cur op2 } := by
  have hlen2 : cur < st.ops.length := by rw [hInv.len]; exact hcur
  have hAt : ∀ w : Nat, (opAt (st.ops.set cur op2) w).meet_num = (opAt st.ops w).meet_num ∧
      (opAt (st.ops.set cur op2) w).inputNamesD = (opAt st.ops w).inputNamesD := by
    intro w
    by_cases hw : cur = w
    · subst hw
      rw [opAt_set_self op2 hlen2]
      exact ⟨hmeet2, inputNamesD_eq_of_skel hskel2⟩
    · rw [opAt_set_ne op2 hw]
      exact ⟨rfl, rfl⟩
  refine ⟨?_, ?_, hInv.qNodup, hInv.qLt, hInv.qNotInput, ?_, hInv.qUnfired,
    ?_, hInv.prodsNodup, hInv.prodsLt, hInv.prodsName, hInv.prodsProcessed,
    hInv.firedNodup, hInv.firedLt, hInv.firedNotInput, ?_, hInv.enqNodup, hInv.enqLt,
    ?_, hInv.inputOnce, hInv.retrNone, hInv.evOk, hInv.reachEnq⟩
  · simpa using hInv.len
  · intro w
    by_cases hw : cur = w
    · subst hw
      rw [List.getElem?_set_self hlen2]
      have hs := hInv.skel cur
      rw [opAt_of_lt hlen2] at hs
      simpa [hskel2] using hs
    · rw [List.getElem?_set_ne hw]
      exact hInv.skel w
  · intro q hqm
    rw [(hAt q).1, (hAt q).2]
    exact hInv.qReady q hqm
  · intro v hv
    rw [(hAt v).1]
    exact hInv.meetAcc v hv
  · intro v hv
    rw [(hAt v).1, (hAt v).2]
    exact hInv.firedMax v hv
  · intro v hv
    rw [(hAt v).1, (hAt v).2]
    exact hInv.enqMax v hv

/-- The consumer-edge sweep preserves the invariant, whether it completes or
dies mid-way. -/
theorem probeList_inv (ops0 : List RuntimeOperator) (inI u : Nat) (curName : String)
    (outDatas : List Tensor)
    (hnames : (ops0.map (fun op => op.name)).Nodup)
    (hInEmpty : (opAt ops0 inI).input_operands_seq = [])
    (hu : u < ops0.length)
    (hname : curName = (opAt ops0 u).name) :
    ∀ (L : List Nat) (st : ExecState), Inv ops0 inI st →
      (∀ v ∈ L, v < ops0.length) → L.Nodup →
      (∀ v ∈ L, u ∉ prodsTo st.trace v) →
      (u ∈ firedNodes st.trace ∨ (u = inI ∧ inputEvents st.trace = 1)) →
      Inv ops0 inI (RuntimeGraph.probeList u curName outDatas L st).state
  | [], st, hInv, _, _, _, _ => by
    unfold RuntimeGraph.probeList
    exact hInv
  | v :: rest, st, hInv, hlt, hnd, hfr, hustat => by
    unfold RuntimeGraph.probeList
    have hv := hlt v (List.mem_cons_self _ _)
    have hstep := probeOne_inv ops0 inI u curName outDatas st v hInv hnames hInEmpty hu
      hname hustat hv (hfr v (List.mem_cons_self _ _))
    cases hres : RuntimeGraph.probeOne u curName outDatas st v with
    | fatal st1 =>
      exact hstep.2 st1 hres
    | ok st1 =>
      dsimp only
      obtain ⟨hInv1, hprods, hfired, hinput⟩ := hstep.1 st1 hres
      refine probeList_inv ops0 inI u curName outDatas hnames hInEmpty hu hname rest st1
        hInv1 ?_ ?_ ?_ ?_
      · intro w hw
        exact hlt w (List.mem_cons_of_mem _ hw)
      · exact (List.nodup_cons.mp hnd).2
      · intro w hw
        have hwv : w ≠ v := fun he => (List.nodup_cons.mp hnd).1 (he ▸ hw)
        rw [hprods w hwv]
        exact hfr w (List.mem_cons_of_mem _ hw)
      · rcases hustat with h | h
        · exact Or.inl (hfired ▸ h)
        · exact Or.inr ⟨h.1, by rw [hinput]; exact h.2⟩

theorem opAt_mem {ops : List RuntimeOperator} {v : Nat} (h : v < ops.length) :
    opAt ops v ∈ ops := by
  have he : opAt ops v = ops[v] := by
    unfold opAt
    rw [List.getElem?_eq_getElem h]
    rfl
  rw [he]
  exact List.getElem_mem h

/-- Propagation from a processed node preserves the invariant. -/
theorem ProbeNextLayer_inv (ops0 : List RuntimeOperator) (inI u : Nat)
    (outDatas : List Tensor) (st : ExecState)
    (hInv : Inv ops0 inI st)
    (hnames : (ops0.map (fun op => op.name)).Nodup)
    (hInEmpty : (opAt ops0 inI).input_operands_seq = [])
    (hu : u < ops0.length)
    (hLlt : ∀ v ∈ (opAt ops0 u).output_operators, v < ops0.length)
    (hLnd : (opAt ops0 u).output_operators.Nodup)
    (hfr : ∀ v ∈ (opAt ops0 u).output_operators, u ∉ prodsTo st.trace v)
    (hustat : u ∈ firedNodes st.trace ∨ (u = inI ∧ inputEvents st.trace = 1)) :
    Inv ops0 inI ((RuntimeGraph.ProbeNextLayer u outDatas st).state) := by
  have hulen2 : u < st.ops.length := by rw [hInv.len]; exact hu
  unfold RuntimeGraph.ProbeNextLayer
  rw [opAt_of_lt hulen2]
  dsimp only
  have hnm : (opAt st.ops u).name = (opAt ops0 u).name := hInv.nameAt_eq hu
  have hco : (opAt st.ops u).output_operators = (opAt ops0 u).output_operators :=
    hInv.consAt_eq hu
  rw [hnm, hco]
  exact probeList_inv ops0 inI u (opAt ops0 u).name outDatas hnames hInEmpty hu rfl
    (opAt ops0 u).output_operators st hInv hLlt hLnd hfr hustat

/-- The scheduler loop preserves the invariant, whatever its exit. -/
theorem forwardLoop_inv (ops0 : List RuntimeOperator) (inI outI : Nat)
    (inputs : List Tensor)
    (hnames : (ops0.map (fun op => op.name)).Nodup)
    (hInEmpty : (opAt ops0 inI).input_operands_seq = [])
    (hconsNodup : ∀ op ∈ ops0, op.output_operators.Nodup)
    (hconsLt : ∀ op ∈ ops0, ∀ v ∈ op.output_operators, v < ops0.length) :
    ∀ (fuel : Nat) (st : ExecState), Inv ops0 inI st →
      Inv ops0 inI ((RuntimeGraph.forwardLoop inI outI inputs fuel st).state) := by
  intro fuel
  induction fuel with
  | zero =>
    intro st hInv
    exact hInv
  | succ fuel ih =>
    intro st hInv
    unfold RuntimeGraph.forwardLoop
    cases hq : st.queue with
    | nil => exact hInv
    | cons cur rest =>
      dsimp only
      have hcurQ : cur ∈ st.queue := by rw [hq]; exact List.mem_cons_self _ _
      have hInv1 : Inv ops0 inI { st with queue := rest } := Inv_dequeue hInv hq
      by_cases hco : cur = outI
      · rw [if_pos hco]
        exact hInv1
      · rw [if_neg hco]
        by_cases hci : cur = inI
        · exact absurd (hci ▸ hcurQ) hInv.qNotInput
        · rw [if_neg hci]
          have hcurLt : cur < ops0.length := hInv.qLt cur hcurQ
          have hcurLt2 : cur < st.ops.length := by rw [hInv.len]; exact hcurLt
          have hget : st.ops[cur]? = some (opAt st.ops cur) := opAt_of_lt hcurLt2
          have hready : (opAt st.ops cur).meet_num = (opAt st.ops cur).inputNamesD.length :=
            hInv.qReady cur hcurQ
          have hchk : RuntimeGraph.CheckOperatorReady (opAt st.ops cur) = some true := by
            unfold RuntimeGraph.CheckOperatorReady
            rw [if_pos (le_of_eq hready)]
            simp [hready]
          split
          · -- st.ops[cur]? = none : impossible
            next heq =>
              rw [hget] at heq
              simp at heq
          · next op heq =>
            have hop : op = opAt st.ops cur := by
              rw [hget] at heq
              exact (Option.some_inj.mp heq).symm
            subst hop
            split
            · -- CheckOperatorReady = none : impossible
              next heq2 =>
                rw [hchk] at heq2
                simp at heq2
            · -- some false : impossible
              next heq2 =>
                rw [hchk] at heq2
                simp at heq2
            · next heq2 =>
              by_cases hins :
                  ((opAt st.ops cur).input_operands_seq.map (fun od => od.datas)).flatten.isEmpty
                    = true
              · rw [if_pos hins]
                exact hInv1
              · rw [if_neg hins]
                split
                · -- output_operands = none
                  exact hInv1
                · next outOd hout =>
                  have hcq1 : cur ∉ rest := by
                    have hnd := hInv.qNodup
                    rw [hq] at hnd
                    exact (List.nodup_cons.mp hnd).1
                  have hunf : cur ∉ firedNodes st.trace := hInv.qUnfired cur hcurQ
                  have hInv2 := Inv_fireTrace hInv1 hcurLt hci hcq1 hunf hready
                  split
                  · -- layer failed
                    exact hInv2
                  · next toks hlay =>
                    have hInv3 := Inv_setOps hInv2 hcurLt
                      { opAt st.ops cur with output_operands := some { outOd with datas := RuntimeGraph.writeTokens outOd.datas toks } }
                      rfl rfl
                    have hPN := ProbeNextLayer_inv ops0 inI cur
                      (RuntimeGraph.writeTokens outOd.datas toks) _ hInv3 hnames hInEmpty
                      hcurLt (hconsLt _ (opAt_mem hcurLt)) (hconsNodup _ (opAt_mem hcurLt))
                      ?_ ?_
                    · split
                      · next st4 hpr =>
                        apply ih
                        rw [hpr] at hPN
                        exact hPN
                      · next st4 hpr =>
                        rw [hpr] at hPN
                        exact hPN
                    · -- freshness of cur towards every consumer
                      intro w hw
                      show cur ∉ prodsTo (st.trace ++
                        [Event.fired cur (opAt st.ops cur).meet_num
                          (opAt st.ops cur).inputNamesD.length]) w
                      simp only [prodsTo_append, prodsTo_cons_fired, prodsTo_nil,
                        List.append_nil]
                      intro hmem
                      rcases hInv.prodsProcessed w cur hmem with h | h
                      · exact hunf h
                      · exact hci h.1
                    · -- cur is processed in the new trace
                      refine Or.inl ?_
                      show cur ∈ firedNodes (st.trace ++
                        [Event.fired cur (opAt st.ops cur).meet_num
                          (opAt st.ops cur).inputNamesD.length])
                      simp

/-- The invariant holds just after the input sentinel is dequeued and its
processing event is recorded, given zeroed counters. -/
theorem Inv_init (ops0 : List RuntimeOperator) (inI : Nat) (hz : meetsZero ops0) :
    Inv ops0 inI { ops := ops0, queue := [], trace := [Event.inputProcessed] } := by
  refine ⟨rfl, fun v => rfl, List.nodup_nil, by simp, by simp, by simp, by simp, ?_,
    by intro v; simp, by intro v u h; simp at h, by intro v u h; simp at h,
    by intro v u h; simp at h, by simp, by intro v h; simp at h, by simp,
    by intro v h; simp at h, by simp, by intro v h; simp at h, by intro v h; simp at h,
    by simp, by simp, ?_, ?_⟩
  · intro v hv
    show (opAt ops0 v).meet_num = (prodsTo [Event.inputProcessed] v).length
    rw [hz _ (opAt_mem hv)]
    simp
  · intro e he
    simp only [List.mem_singleton] at he
    subst he
    exact trivial
  · intro v hv h1 h2
    simp only [prodsTo_cons_input, prodsTo_nil, List.length_nil] at h1
    omega

/-- Every trace the scheduler loop can leave behind, started from the
post-input-processing initial state of a well-formed graph, is good. -/
theorem forwardLoop_init_good (ops0 : List RuntimeOperator) (inI outI : Nat)
    (inputs : List Tensor) (hWF : WF ops0 inI outI) (hz : meetsZero ops0) (fuel : Nat) :
    GoodTrace ops0 ((RuntimeGraph.forwardLoop inI outI inputs fuel
      { ops := ops0, queue := [inI], trace := [] }).state).trace := by
  obtain ⟨hin, hout2, hne, hnames, hcn, hcl, hns, hie⟩ := hWF
  have hInEmpty : (opAt ops0 inI).input_operands_seq = [] := by
    have h1 := hie
    rw [opAt_of_lt hin] at h1
    simpa using h1
  cases fuel with
  | zero => exact GoodTrace_nil ops0
  | succ fuel =>
    unfold RuntimeGraph.forwardLoop
    dsimp only
    rw [if_neg hne, if_pos rfl]
    split
    · next st2 hpr =>
      have hE : RuntimeGraph.ProbeNextLayer inI inputs
          { ops := ops0, queue := [], trace := [Event.inputProcessed] } = PRes.ok st2 := hpr
      have hPN := ProbeNextLayer_inv ops0 inI inI inputs
        { ops := ops0, queue := [], trace := [Event.inputProcessed] }
        (Inv_init ops0 inI hz) hnames hInEmpty hin
        (hcl _ (opAt_mem hin)) (hcn _ (opAt_mem hin))
        (by intro v hv; simp) (Or.inr ⟨rfl, by simp⟩)
      rw [hE] at hPN
      exact (forwardLoop_inv ops0 inI outI inputs hnames hInEmpty hcn hcl fuel st2
        hPN).toGoodTrace
    · next st2 hpr =>
      have hE : RuntimeGraph.ProbeNextLayer inI inputs
          { ops := ops0, queue := [], trace := [Event.inputProcessed] } = PRes.fatal st2 := hpr
      have hPN := ProbeNextLayer_inv ops0 inI inI inputs
        { ops := ops0, queue := [], trace := [Event.inputProcessed] }
        (Inv_init ops0 inI hz) hnames hInEmpty hin
        (hcl _ (opAt_mem hin)) (hcn _ (opAt_mem hin))
        (by intro v hv; simp) (Or.inr ⟨rfl, by simp⟩)
      rw [hE] at hPN
      exact hPN.toGoodTrace

/-- The trace of a whole `Forward` call on a well-formed graph is good. -/
theorem Forward_trace_good (g : RuntimeGraph) (inputs : List Tensor) (fuel : Nat)
    (inI outI : Nat) (h : WFGraph g inI outI) :
    GoodTrace g.operators ((g.Forward inputs fuel).trace) := by
  obtain ⟨hstate, hlin, hlout, hWF, hz⟩ := h
  unfold RuntimeGraph.Forward
  rw [hstate]
  rw [if_neg (lt_irrefl _)]
  rw [if_neg (by simp : ¬(GraphState.Complete ≠ GraphState.Complete))]
  rw [hlin]
  try dsimp only
  rw [hlout]
  try dsimp only
  have hmain := forwardLoop_init_good g.operators inI outI inputs hWF hz fuel
  split
  · next st hloop =>
    have hgood : GoodTrace g.operators st.trace := by
      rw [hloop] at hmain
      exact hmain
    try dsimp only
    split <;> try exact hgood
    all_goals try (split <;> try exact hgood)
    all_goals try (split <;> try exact hgood)
  · next st hloop =>
    rw [hloop] at hmain
    exact hmain
  · next st hloop =>
    rw [hloop] at hmain
    exact hmain

/-- C1: in every `Forward` pass over a successfully built (well-formed)
graph, a node's compute handler is invoked only when its delivery counter
equals the size of its input-operand mapping (the distinct-producer count,
not the length of the ordered operand sequence) — each firing event records
counter = map size at the moment of invocation — and each node's handler
runs at most once per pass. -/
theorem claim_C1 (g : RuntimeGraph) (inI outI : Nat) (h : WFGraph g inI outI)
    (inputs : List Tensor) (fuel : Nat) :
    (∀ v m k : Nat, Event.fired v m k ∈ (g.Forward inputs fuel).trace →
      m = k ∧ ((g.operators[v]?).map (fun op => op.inputNamesD.length)) = some k) ∧
    (∀ v : Nat, (firedNodes (g.Forward inputs fuel).trace).count v ≤ 1) := by
  obtain ⟨hev, hfnd, henq, hret, hreach⟩ := Forward_trace_good g inputs fuel inI outI h
  constructor
  · intro v m k hmem
    exact hev _ hmem
  · intro v
    exact List.nodup_iff_count_le_one.mp hfnd v

theorem claim_C1_witness :
    WFGraph gChain 0 2 ∧
    ((∀ v m k : Nat, Event.fired v m k ∈ (gChain.Forward [tIn] 10).trace →
      m = k ∧ ((gChain.operators[v]?).map (fun op => op.inputNamesD.length)) = some k) ∧
    (∀ v : Nat, (firedNodes (gChain.Forward [tIn] 10).trace).count v ≤ 1)) :=
  ⟨by decide, claim_C1 gChain 0 2 (by decide) [tIn] 10⟩

/-- C9: on a well-formed built graph, the not-ready retry branch of the
scheduler loop never executes (no `retried` event ever appears in the
trace), and every dequeued non-sentinel node is ready at dequeue time: each
firing records a delivery counter equal to the distinct-producer count. -/
theorem claim_C9 (g : RuntimeGraph) (inI outI : Nat) (h : WFGraph g inI outI)
    (inputs : List Tensor) (fuel : Nat) :
    (∀ v : Nat, Event.retried v ∉ (g.Forward inputs fuel).trace) ∧
    (∀ v m k : Nat, Event.fired v m k ∈ (g.Forward inputs fuel).trace → m = k) := by
  obtain ⟨hev, hfnd, henq, hret, hreach⟩ := Forward_trace_good g inputs fuel inI outI h
  constructor
  · intro v hmem
    have hv : v ∈ retrNodes (g.Forward inputs fuel).trace := mem_retrNodes_of_mem hmem
    rw [hret] at hv
    simp at hv
  · intro v m k hmem
    exact (hev _ hmem).1

theorem claim_C9_witness :
    WFGraph gChain 0 2 ∧
    ((∀ v : Nat, Event.retried v ∉ (gChain.Forward [tIn] 10).trace) ∧
    (∀ v m k : Nat, Event.fired v m k ∈ (gChain.Forward [tIn] 10).trace → m = k)) :=
  ⟨by decide, claim_C9 gChain 0 2 (by decide) [tIn] 10⟩

/-- C3: during one `Forward` pass over a well-formed graph, propagation
enqueues each consumer at most once; every enqueue happens exactly at the
moment the consumer's post-increment counter reaches its distinct-producer
count (the event records that count); every consumer whose deliveries reach
its distinct-producer count does get enqueued; and a delivery to a consumer
already present in the work queue never enqueues it (nor changes the
queue). -/
theorem claim_C3 (g : RuntimeGraph) (inI outI : Nat) (h : WFGraph g inI outI)
    (inputs : List Tensor) (fuel : Nat) :
    (∀ v : Nat, (enqNodes (g.Forward inputs fuel).trace).count v ≤ 1) ∧
    (∀ v m : Nat, Event.enqueued v m ∈ (g.Forward inputs fuel).trace →
      ((g.operators[v]?).map (fun op => op.inputNamesD.length)) = some m) ∧
    (∀ v : Nat, v < g.operators.length →
      (prodsTo (g.Forward inputs fuel).trace v).length = sizeAt g.operators v →
      0 < sizeAt g.operators v → v ∈ enqNodes (g.Forward inputs fuel).trace) ∧
    (∀ (u : Nat) (curName : String) (outDatas : List Tensor) (st : ExecState)
      (v : Nat) (st2 : ExecState), v ∈ st.queue →
      RuntimeGraph.probeOne u curName outDatas st v = PRes.ok st2 →
      enqNodes st2.trace = enqNodes st.trace ∧ st2.queue = st.queue) := by
  obtain ⟨hev, hfnd, henq, hret, hreach⟩ := Forward_trace_good g inputs fuel inI outI h
  refine ⟨?_, ?_, ?_, ?_⟩
  · intro v
    exact List.nodup_iff_count_le_one.mp henq v
  · intro v m hmem
    exact hev _ hmem
  · intro v hv hlen hpos
    exact hreach v hv hlen hpos
  · intro u curName outDatas st v st2 hq hok
    unfold RuntimeGraph.probeOne at hok
    split at hok
    · exact absurd hok (by simp)
    · next nextOp heq =>
      split at hok
      · cases hok
        exact ⟨rfl, rfl⟩
      · next od hfo =>
        split at hok
        · exact absurd hok (by simp)
        · next newDatas hsd =>
          rw [if_pos hq] at hok
          dsimp only at hok
          cases hok
          constructor
          · simp
          · rfl

theorem claim_C3_witness :
    WFGraph gChain 0 2 ∧
    ((∀ v : Nat, (enqNodes (gChain.Forward [tIn] 10).trace).count v ≤ 1) ∧
    (∀ v m : Nat, Event.enqueued v m ∈ (gChain.Forward [tIn] 10).trace →
      ((gChain.operators[v]?).map (fun op => op.inputNamesD.length)) = some m) ∧
    (∀ v : Nat, v < gChain.operators.length →
      (prodsTo (gChain.Forward [tIn] 10).trace v).length = sizeAt gChain.operators v →
      0 < sizeAt gChain.operators v → v ∈ enqNodes (gChain.Forward [tIn] 10).trace) ∧
    (∀ (u : Nat) (curName : String) (outDatas : List Tensor) (st : ExecState)
      (v : Nat) (st2 : ExecState), v ∈ st.queue →
      RuntimeGraph.probeOne u curName outDatas st v = PRes.ok st2 →
      enqNodes st2.trace = enqNodes st.trace ∧ st2.queue = st.queue)) :=
  ⟨by decide, claim_C3 gChain 0 2 (by decide) [tIn] 10⟩

end KuiperInfer
